import Mathlib

/-!
Verification of the extraction-validation-merge pipeline of the Homeogenie
medical-intake chatbot (`src/medical_chatbot/`).

The Python code is shallowly embedded: JSON-like Python values become the
inductive type `Json`, Python dicts become association lists with
insertion-order preserving assignment, Python exceptions become
`Option`/`Except` results, and the record type `PatientHistory`
(models.py) becomes a Lean structure.  String literals from the source are
reproduced verbatim except that ASCII quote characters inside messages are
omitted.  The generator collaborator (the language-model completion call,
out of scope per the design) is modelled as an oracle `gen : Option String`
where `none` models failure after retry exhaustion, and `json.loads` is
modelled as a parameter `parse : String → Option Json` where `none` models
a `JSONDecodeError`.
-/

namespace Homeogenie

/-- JSON-like Python values as handled by the extraction pipeline.
Numbers are modelled as rationals (Python ints and floats). -/
inductive Json where
  | null
  | bool (b : Bool)
  | num (q : ℚ)
  | str (s : String)
  | arr (elems : List Json)
  | obj (fields : List (String × Json))

/-- A Python dict with string keys, in insertion order. -/
abbrev Obj := List (String × Json)

/-- Dict lookup `d[k]` / `d.get(k)`: first binding for the key. -/
def getVal (o : Obj) (k : String) : Option Json :=
  (o.find? (fun p => p.1 = k)).map (fun p => p.2)

/-- Dict assignment `d[k] = v`: overwrite an existing binding in place,
otherwise append (Python dicts preserve insertion order). -/
def setVal (o : Obj) (k : String) (v : Json) : Obj :=
  match o with
  | [] => [(k, v)]
  | (k', v') :: rest => if k' = k then (k, v) :: rest else (k', v') :: setVal rest k v

/-- Python `k in d` on a dict. -/
def hasKey (o : Obj) (k : String) : Bool :=
  (getVal o k).isSome

/-- Python truthiness of a JSON-like value. -/
def truthy : Json → Bool
  | .null => false
  | .bool b => b
  | .num q => q != 0
  | .str s => s ≠ ""
  | .arr l => !l.isEmpty
  | .obj f => !f.isEmpty

/-- Truthiness of `d.get(k)` (missing key → `None` → falsy). -/
def getTruthy (o : Obj) (k : String) : Bool :=
  match getVal o k with
  | some v => truthy v
  | none => false

/-- The five scalar basic-info fields, in the order utils.py iterates them. -/
def basic_fields : List String := ["name", "age", "gender", "height", "weight"]

/-- Final step of utils.validate_and_normalize_extracted_data: default the
is_complete and needs_clarification flags to False when absent. -/
def defaultFlags (d : Obj) : Obj :=
  let d1 := if hasKey d "is_complete" then d else setVal d "is_complete" (.bool false)
  if hasKey d1 "needs_clarification" then d1 else setVal d1 "needs_clarification" (.bool false)

/-- utils.validate_and_normalize_extracted_data.  The section name is the
loosely-typed `history.current_section`, hence `Option String`.  Returns
`none` where the Python function raises: for a non-basic_info section whose
`extracted` value is not a dict, both the `in` test and the item assignment
on that value raise a `TypeError`. -/
def validate_and_normalize_extracted_data (d : Obj) (sec : Option String) : Option Obj :=
  let d1 := if hasKey d "extracted" then d else setVal d "extracted" (.obj [])
  if sec = some "basic_info" then
    let e0 : Obj :=
      match getVal d1 "extracted" with
      | some (.obj f) => f
      | _ => []
    let e1 := basic_fields.foldl (fun e f => if hasKey e f then e else setVal e f .null) e0
    some (defaultFlags (setVal d1 "extracted" (.obj e1)))
  else
    match getVal d1 "extracted" with
    | some (.obj f) =>
      let f1 :=
        match getVal f "items" with
        | none => setVal f "items" (.arr [])
        | some (.arr _) => f
        | some v => if truthy v then setVal f "items" (.arr [v]) else setVal f "items" (.arr [])
      some (defaultFlags (setVal d1 "extracted" (.obj f1)))
    | _ => none

/-! ### data_extraction.py -/

/-- Python exceptions arising inside the extraction pipeline.  All three are
`Exception` subclasses, so all are caught by extract_information's handlers. -/
inductive PyErr where
  | jsonDecodeError (msg : String)
  | dataExtractionError (msg : String)
  | otherError (msg : String)

/-- DataExtractor.required_basic_fields. -/
def required_basic_fields : List String := ["name", "age"]

/-- Membership of a value in Python's `[None, ""]` (used by the required-field
check `extracted.get(field) not in [None, ""]`). -/
def isNullOrEmptyStr : Json → Bool
  | .null => true
  | .str s => s = ""
  | _ => false

/-- Substring test on character lists (Python `pat in s`). -/
def containsSubAux (pat : List Char) : List Char → Bool
  | [] => pat.isEmpty
  | c :: rest => pat.isPrefixOf (c :: rest) || containsSubAux pat rest

/-- Python substring test `pat in s`. -/
def containsSub (s pat : String) : Bool := containsSubAux pat.data s.data

/-- Python str.lower, as the ASCII character map over the string's
characters (the weight strings of the extraction contract are ASCII). -/
def pyLower (s : String) : String := ⟨s.data.map Char.toLower⟩

/-- Python str.strip: drop leading and trailing whitespace. -/
def pyStrip (s : String) : String :=
  ⟨((s.data.dropWhile Char.isWhitespace).reverse.dropWhile Char.isWhitespace).reverse⟩

/-- Leading digit run of a character list, with the remainder. -/
def takeDigits : List Char → List Char × List Char
  | [] => ([], [])
  | c :: cs =>
    if c.isDigit then
      let (ds, rest) := takeDigits cs
      (c :: ds, rest)
    else ([], c :: cs)

/-- Leftmost match of the regex `(\d+\.?\d*)` (re.search in _normalize_weight):
integer digits of the first number, and its fractional digits if a dot
directly follows them. -/
def firstNumberMatch : List Char → Option (List Char × List Char)
  | [] => none
  | c :: cs =>
    if c.isDigit then
      let (d1, r1) := takeDigits (c :: cs)
      match r1 with
      | '.' :: r2 => some (d1, (takeDigits r2).1)
      | _ => some (d1, [])
    else firstNumberMatch cs

/-- Numeric value of a digit run. -/
def digitsToNat (ds : List Char) : ℕ :=
  ds.foldl (fun n c => 10 * n + (c.toNat - 48)) 0

/-- `float(...)` of the matched decimal literal, as an exact rational. -/
def matchToRat (intPart fracPart : List Char) : ℚ :=
  (digitsToNat intPart : ℚ) + (digitsToNat fracPart : ℚ) / ((10 : ℚ) ^ fracPart.length)

/-- First decimal number of a string per the `(\d+\.?\d*)` pattern match. -/
def extractFirstNumber (s : String) : Option ℚ :=
  (firstNumberMatch s.data).map (fun p => matchToRat p.1 p.2)

/-- Rounding half to even, the tie-breaking rule of Python's round. -/
def roundHalfEven (q : ℚ) : ℤ :=
  let f := ⌊q⌋
  let r := q - f
  if r < 1 / 2 then f
  else if r > 1 / 2 then f + 1
  else if Even f then f else f + 1

/-- Python `round(x, 2)`, modelled exactly over the rationals. -/
def round2 (q : ℚ) : ℚ := (roundHalfEven (q * 100) : ℚ) / 100

/-- The lbs→kg factor 0.453592 of _normalize_weight. -/
def lbsToKg : ℚ := 453592 / 1000000

/-- DataExtractor._validate_basic_info_completeness.  Returns `none` where
Python would raise (`extracted.get` on a truthy non-dict value). -/
def validate_basic_info_completeness (data : Obj) : Option Obj :=
  match getVal data "extracted" with
  | none => some data
  | some v =>
    if !truthy v then some data
    else
      match v with
      | .obj e =>
        let is_complete := required_basic_fields.all
          (fun f => !isNullOrEmptyStr ((getVal e f).getD .null))
        let data1 := setVal data "is_complete" (.bool is_complete)
        if is_complete then some data1
        else
          let data2 := setVal data1 "needs_clarification" (.bool true)
          let missing_fields := required_basic_fields.filter (fun f => !getTruthy e f)
          some (setVal data2 "clarification_message"
            (.str ("Please provide: " ++ String.intercalate ", " missing_fields ++
                   ". For weight, specify units (kg or lbs).")))
      | _ => none

/-- DataExtractor._normalize_weight.  Returns `none` where Python would raise
(attribute access on a truthy non-dict `extracted` value).  A bool weight is
converted via `float` (Python bools are ints); list/dict weights raise
`TypeError`, which the function itself catches in the clarification branch. -/
def normalize_weight (data : Obj) : Option Obj :=
  match getVal data "extracted" with
  | none => some data
  | some v =>
    if !truthy v then some data
    else
      match v with
      | .obj e =>
        match getVal e "weight" with
        | none => some data
        | some .null => some data
        | some w =>
          let attempt : Option ℚ :=
            match w with
            | .str s =>
              let s1 := pyStrip (pyLower s)
              match extractFirstNumber s1 with
              | none => none
              | some q =>
                some (if containsSub s1 "lb" || containsSub s1 "pound" then q * lbsToKg else q)
            | .num q => some q
            | .bool b => some (if b then 1 else 0)
            | _ => none
          match attempt with
          | some q => some (setVal data "extracted" (.obj (setVal e "weight" (.num (round2 q)))))
          | none =>
            let data1 := setVal data "extracted" (.obj (setVal e "weight" .null))
            let data2 := setVal data1 "needs_clarification" (.bool true)
            some (if hasKey data2 "clarification_message" then data2
                  else setVal data2 "clarification_message"
                    (.str "Please provide weight in kg or lbs (e.g., 70 kg or 150 lbs)"))
      | _ => none

/-- The section-specific post-validation the Coordinator applies to basic_info
extractions (extract_information lines 52-54). -/
def basic_info_post_validation (data : Obj) : Option Obj :=
  (validate_basic_info_completeness data).bind normalize_weight

/-- DataExtractor._create_error_response.  Note the placement of the
conditional in the source: the five-null bag is the value of the `items` key,
so the basic_info placeholder is `(\x7b"items": \x7bfive nulls\x7d\x7d)`. -/
def create_error_response (sec : Option String) (error_msg : Option String) : Obj :=
  let itemsVal : Json :=
    if sec ≠ some "basic_info" then .arr []
    else .obj [("name", .null), ("age", .null), ("gender", .null),
               ("height", .null), ("weight", .null)]
  let response : Obj :=
    [("extracted", .obj [("items", itemsVal)]),
     ("is_complete", .bool false),
     ("needs_clarification", .bool true),
     ("error", match error_msg with | some m => .str m | none => .null),
     ("success", .bool false)]
  if sec = some "basic_info" then
    setVal response "clarification_message"
      (.str ("Please provide your name and age to continue. " ++
             (match error_msg with | some m => m | none => "") ++
             "For weight, please specify kg or lbs (e.g., 70 kg or 150 lbs)."))
  else response

/-- DataExtractor._get_extraction_prompt.  The prompt bodies are long fixed
instruction texts; no claim depends on their content, only on which branch is
taken and on every branch returning nonempty text, so each body is shortened
to a stand-in naming its branch. -/
def get_extraction_prompt (sec : Option String) (message context_str : String) : String :=
  let tail := message ++ " | " ++ context_str
  match sec with
  | some "basic_info" => "basic_info extraction prompt: " ++ tail
  | some "medications" => "medications extraction prompt: " ++ tail
  | some "allergies" => "allergies extraction prompt: " ++ tail
  | some "chronic_conditions" => "chronic_conditions extraction prompt: " ++ tail
  | some "surgeries" => "surgeries extraction prompt: " ++ tail
  | some "family_history" => "family_history extraction prompt: " ++ tail
  | _ => "generic extraction prompt: " ++ tail

/-- DataExtractor._get_chatbot_response.  The generator collaborator is the
oracle `gen`; `none` models its failure after exhausting retries.  Every
exception inside the try block (including the DataExtractionError raised for
an empty reply) is wrapped as `DataExtractionError("Chatbot communication
failed: ...")`. -/
def get_chatbot_response (gen : Option String) : Except PyErr String :=
  match gen with
  | none => .error (.dataExtractionError "Chatbot communication failed")
  | some r =>
    if r = "" then .error (.dataExtractionError "Chatbot communication failed: Empty response from chatbot")
    else .ok r

/-- DataExtractor._parse_response; `parse` models json.loads (`none` models a
JSONDecodeError, which the method re-raises unwrapped).  Every other failure
leaves as a DataExtractionError. -/
def parse_response (parse : String → Option Json) (response : String) (sec : Option String) :
    Except PyErr Obj :=
  match parse response with
  | none => .error (.jsonDecodeError "Invalid JSON response")
  | some j =>
    match j with
    | .obj fields =>
      if hasKey fields "extracted" then
        match validate_and_normalize_extracted_data fields sec with
        | some d => .ok d
        | none => .error (.dataExtractionError "Response validation failed")
      else .error (.dataExtractionError "Response validation failed: Missing extracted field in response")
    | _ => .error (.dataExtractionError "Response validation failed: Response is not a JSON object")

/-- The try block of DataExtractor.extract_information (lines 40-56): the
computation whose exceptions the except clauses then convert. -/
def extract_information_body (parse : String → Option Json) (gen : Option String)
    (message : String) (sec : Option String) (context : List String) : Except PyErr Obj := do
  let context_str := if context.isEmpty then "No context available" else String.intercalate "\n" context
  let prompt := get_extraction_prompt sec message context_str
  if prompt = "" then .error (.dataExtractionError "Failed to generate extraction prompt")
  else do
    let response ← get_chatbot_response gen
    let extracted_data ← parse_response parse response sec
    if sec = some "basic_info" then
      match basic_info_post_validation extracted_data with
      | some d => .ok d
      | none => .error (.otherError "AttributeError")
    else .ok extracted_data

/-- The except clauses of extract_information: JSONDecodeError,
DataExtractionError and Exception are each converted to an error response, so
every modelled Python exception is caught. -/
def handle_extract_error (sec : Option String) : PyErr → Obj
  | .jsonDecodeError m => create_error_response sec (some ("Invalid JSON response: " ++ m))
  | .dataExtractionError m => create_error_response sec (some ("Data extraction failed: " ++ m))
  | .otherError m => create_error_response sec (some ("Unexpected error during extraction: " ++ m))

/-- DataExtractor.extract_information.  `sec` is
`getattr(history, 'current_section', 'basic_info')`; the empty-message guard
answers with a basic_info-shaped error response before the section is read. -/
def extract_information (parse : String → Option Json) (gen : Option String)
    (message : String) (sec : Option String) (context : List String) : Obj :=
  if message = "" then
    create_error_response (some "basic_info") (some "Invalid message input - must be non-empty string")
  else
    match extract_information_body parse gen message sec context with
    | .ok d => d
    | .error e => handle_extract_error sec e

/-! ### models.py and history_manager.py -/

/-- models.PatientHistory.  Scalar basic-info fields hold raw extracted
values (pydantic does not validate assignments), list fields are the
canonical-string lists, `completion_status` is the section→bool dict (its
keys are `Option String` because `history.current_section`, which may be
`None`, is used as the update key), and `last_updated` is an abstract clock
value supplied to the merge operation. -/
structure PatientHistory where
  patient_id : String
  name : Json := .null
  age : Json := .null
  gender : Json := .null
  height : Json := .null
  weight : Json := .null
  medications : List String := []
  allergies : List String := []
  chronic_conditions : List String := []
  surgeries : List String := []
  family_history : List String := []
  last_updated : ℕ := 0
  current_section : Option String := some "basic_info"
  completion_status : List (Option String × Bool) :=
    [(some "basic_info", false), (some "medications", false), (some "allergies", false),
     (some "chronic_conditions", false), (some "surgeries", false), (some "family_history", false)]

/-- The canonical section order (MedicalChatbot.sections), passed to
HistoryManager at construction. -/
def chatbot_sections : List String :=
  ["basic_info", "medications", "allergies", "chronic_conditions", "surgeries", "family_history"]

/-- `completion_status.get(s, False)`. -/
def getStatus (cs : List (Option String × Bool)) (s : String) : Bool :=
  ((cs.find? (fun p => p.1 = some s)).map (fun p => p.2)).getD false

/-- `completion_status[k] = True`. -/
def setStatusTrue (cs : List (Option String × Bool)) (k : Option String) :
    List (Option String × Bool) :=
  match cs with
  | [] => [(k, true)]
  | (k', v') :: rest => if k' = k then (k, true) :: rest else (k', v') :: setStatusTrue rest k

/-- Decimal digits of a natural number, most significant first (empty for
zero); the first argument is structural fuel, instantiated with the number
itself. -/
def natDigitsAux : ℕ → ℕ → List Char
  | 0, _ => []
  | fuel + 1, n =>
    if n = 0 then [] else natDigitsAux fuel (n / 10) ++ [Char.ofNat (48 + n % 10)]

/-- Decimal numeral of a natural number, as Python str() renders it. -/
def natStr (n : ℕ) : String :=
  if n = 0 then "0" else ⟨natDigitsAux n n⟩

/-- Decimal numeral of an integer, as Python str() renders it. -/
def intStr (n : ℤ) : String :=
  if n < 0 then "-" ++ natStr n.natAbs else natStr n.natAbs

/-- Least `k ≤ fuel` with `d ∣ 10 ^ k`, if any: the number of decimal
places needed to render a fraction with denominator `d` exactly. -/
def decExpAux (d : ℕ) : ℕ → Option ℕ
  | 0 => if d = 1 then some 0 else none
  | k + 1 =>
    match decExpAux d k with
    | some j => some j
    | none => if d ∣ 10 ^ (k + 1) then some (k + 1) else none

/-- Left-pad a digit list with zeros to the given length. -/
def padZeros (s : List Char) (n : ℕ) : List Char :=
  List.replicate (n - s.length) (Char.ofNat 48) ++ s

/-- Python str() of a JSON number.  `Json.num` holds a rational and does not
retain whether json.loads produced an int or a float, so an integral value
renders as its integer numeral (Python would render a float 5.0 as "5.0"),
and a non-integral value renders as its exact terminating decimal — which
for every decimal literal a JSON document can carry coincides with Python's
shortest-round-trip float repr (e.g. 2.5 renders "2.5").  A rational whose
denominator divides no power of ten, which json.loads can never produce,
falls back to a fraction numeral.  No claim depends on the rendered text of
a numeric sub-field beyond it being some fixed string. -/
def pyNumStr (q : ℚ) : String :=
  if q.den = 1 then intStr q.num
  else
    match decExpAux q.den 40 with
    | some k =>
      let a := q.num.natAbs * 10 ^ k / q.den
      let ds := padZeros (natDigitsAux a a) (k + 1)
      (if q.num < 0 then "-" else "") ++
        (⟨ds.take (ds.length - k)⟩ : String) ++ "." ++ ⟨ds.drop (ds.length - k)⟩
    | none => intStr q.num ++ "/" ++ natStr q.den

/-- The single-quote delimiter Python repr() puts around strings. -/
def pyQuote : String := ⟨[Char.ofNat 39]⟩

mutual

/-- Python repr() of a JSON-like value, as used for the elements of a list
or dict rendered inside an f-string: like str() except that strings gain
quote delimiters (repr's escaping of quotes and backslashes inside the
string is not modelled; no claim touches it). -/
def pyRepr : Json → String
  | .null => "None"
  | .bool true => "True"
  | .bool false => "False"
  | .num q => pyNumStr q
  | .str s => pyQuote ++ s ++ pyQuote
  | .arr l => "[" ++ pyReprList l ++ "]"
  | .obj f => "\x7b" ++ pyReprFields f ++ "\x7d"

/-- Comma-separated repr of list elements. -/
def pyReprList : List Json → String
  | [] => ""
  | [j] => pyRepr j
  | j :: rest => pyRepr j ++ ", " ++ pyReprList rest

/-- Comma-separated `key: value` repr of dict bindings. -/
def pyReprFields : List (String × Json) → String
  | [] => ""
  | [(k, v)] => pyQuote ++ k ++ pyQuote ++ ": " ++ pyRepr v
  | (k, v) :: rest => pyQuote ++ k ++ pyQuote ++ ": " ++ pyRepr v ++ ", " ++ pyReprFields rest

end

/-- Python str() of a JSON-like value: how an f-string such as
`f"Severity: ..."` renders a sub-field of any type.  str() never raises:
strings render as themselves, None/True/False by their Python names,
numbers by `pyNumStr`, and containers by their repr. -/
def pyStr : Json → String
  | .str s => s
  | .null => "None"
  | .bool true => "True"
  | .bool false => "False"
  | .num q => pyNumStr q
  | .arr l => "[" ++ pyReprList l ++ "]"
  | .obj f => "\x7b" ++ pyReprFields f ++ "\x7d"

/-- Why one dict item contributes no canonical string entry.  `typeError`
models Python raising a TypeError while building the entry (str.join on a
non-string component, or += on a non-string base).  `nonString` models the
one path where Python succeeds but appends a value that is not a string —
outside the `List[str]` type the models.py record declares for every list
field (pydantic does not re-validate assignments), so the canonical-string
embedding cannot carry it. -/
inductive EntryFault where
  | typeError
  | nonString

/-- A labelled component list of a canonical string: one component when the
sub-field is truthy, rendered through Python str() inside the f-string
(which succeeds for a value of any type), none otherwise. -/
def entryComponent (item : Obj) (key label : String) : List String :=
  if getTruthy item key then [label ++ pyStr ((getVal item key).getD .null)] else []

/-- HistoryManager._update_medications, canonical string of one dict item:
`med.get('name', 'Unknown medication')` (the fallback applies only when the
key is absent), then ` - dosage` and ` - frequency` components appended to
it with `+=`, each f-string-rendered so truthy sub-field values of any type
succeed.  A present non-string name with no truthy component is appended to
the list raw without raising (`.nonString`); with a truthy component, `+=`
of the f-string raises a TypeError unless the name is a list, which `+=`
extends element-wise with the characters — still producing a non-string
entry (`.nonString`). -/
def medEntry (med : Obj) : Except EntryFault String :=
  let comps := entryComponent med "dosage" " - " ++ entryComponent med "frequency" " - "
  match getVal med "name" with
  | none => .ok ("Unknown medication" ++ String.join comps)
  | some (.str s) => .ok (s ++ String.join comps)
  | some v =>
    if comps.isEmpty then .error .nonString
    else
      match v with
      | .arr _ => .error .nonString
      | _ => .error .typeError

/-- HistoryManager._update_allergies, canonical string of one dict item:
the truthy name is appended raw to the component list (so a truthy
non-string name makes the final `" - ".join` raise a TypeError), a falsy or
absent name falls back to "Unknown allergy", and the Severity and Reaction
components are f-string-rendered, succeeding for values of any type. -/
def allergyEntry (a : Obj) : Except EntryFault String :=
  let comps := entryComponent a "severity" "Severity: " ++ entryComponent a "reaction" "Reaction: "
  if getTruthy a "name" then
    match (getVal a "name").getD .null with
    | .str s => .ok (String.intercalate " - " (s :: comps))
    | _ => .error .typeError
  else .ok (String.intercalate " - " ("Unknown allergy" :: comps))

/-- HistoryManager._update_chronic_conditions, canonical string of one item
(same join pattern as allergies). -/
def conditionEntry (c : Obj) : Except EntryFault String :=
  let comps :=
    entryComponent c "diagnosis_date" "Diagnosed: " ++ entryComponent c "status" "Status: "
  if getTruthy c "name" then
    match (getVal c "name").getD .null with
    | .str s => .ok (String.intercalate " - " (s :: comps))
    | _ => .error .typeError
  else .ok (String.intercalate " - " ("Unknown condition" :: comps))

/-- HistoryManager._update_surgeries, canonical string of one item: type,
falling back to name, falling back to "Unknown surgery"; same join pattern
as allergies. -/
def surgeryEntry (s : Obj) : Except EntryFault String :=
  let comps :=
    entryComponent s "date" "Date: " ++ entryComponent s "complications" "Complications: "
  if getTruthy s "type" then
    match (getVal s "type").getD .null with
    | .str t => .ok (String.intercalate " - " (t :: comps))
    | _ => .error .typeError
  else if getTruthy s "name" then
    match (getVal s "name").getD .null with
    | .str t => .ok (String.intercalate " - " (t :: comps))
    | _ => .error .typeError
  else .ok (String.intercalate " - " ("Unknown surgery" :: comps))

/-- HistoryManager._update_family_history, canonical string of one item
(same join pattern as allergies, keyed on relation). -/
def familyEntry (f : Obj) : Except EntryFault String :=
  let comps :=
    entryComponent f "condition" "Condition: " ++ entryComponent f "age_of_onset" "Age of onset: "
  if getTruthy f "relation" then
    match (getVal f "relation").getD .null with
    | .str s => .ok (String.intercalate " - " (s :: comps))
    | _ => .error .typeError
  else .ok (String.intercalate " - " ("Unknown relation" :: comps))

/-- The `extracted_data.get("items", [])` step shared by the five list-section
update methods, with the not-a-list repair; `none` models the
AttributeError Python raises when `extracted` is not a dict. -/
def itemsOf : Json → Option (List Json)
  | .obj e =>
    some (match getVal e "items" with
          | some (.arr l) => l
          | some v => if truthy v then [v] else []
          | none => [])
  | _ => none

/-- One iteration of the item loop shared verbatim by the five list-section
update methods: a dict item is canonicalized by `entry` and appended unless
already present; a non-blank string item is appended unless already present;
every other item is skipped silently.  An entry fault stops the modelled
merge: `.typeError` is the Python exception propagating out of
update_history, and `.nonString` is Python appending a raw non-string value
that the string-typed record list cannot hold (see `EntryFault`). -/
def mergeItem (entry : Obj → Except EntryFault String) (acc : List String) :
    Json → Option (List String)
  | .obj fields =>
    match entry fields with
    | .ok s => some (if s ∈ acc then acc else acc ++ [s])
    | .error _ => none
  | .str s => some (if pyStrip s ≠ "" ∧ s ∉ acc then acc ++ [s] else acc)
  | _ => some acc

/-- The item loop of the five list-section update methods. -/
def update_list_section (entry : Obj → Except EntryFault String) (ext : Json) (cur : List String) :
    Option (List String) := do
  let items ← itemsOf ext
  items.foldlM (mergeItem entry) cur

/-- HistoryManager._update_basic_info: for each of the five scalar fields,
overwrite the record value when the key is present with a non-None value.
On a non-dict `extracted`, Python's `key in extracted_data` degrades to
substring/membership tests and the subsequent indexing raises. -/
def update_basic_info (h : PatientHistory) (ext : Json) : Option PatientHistory :=
  match ext with
  | .obj e =>
    let upd := fun (cur : Json) (k : String) =>
      match getVal e k with
      | some .null => cur
      | some v => v
      | none => cur
    some { h with name := upd h.name "name", age := upd h.age "age",
                  gender := upd h.gender "gender", height := upd h.height "height",
                  weight := upd h.weight "weight" }
  | .str s => if basic_fields.any (fun k => containsSub s k) then none else some h
  | .arr l =>
    if basic_fields.any (fun k => l.any (fun j => match j with | .str t => t == k | _ => false))
    then none else some h
  | _ => none

/-- HistoryManager._mark_section_complete: set the completion flag of the
current section, then move to the first section in canonical order whose
flag is still false (or to None). -/
def mark_section_complete (sections : List String) (h : PatientHistory) : PatientHistory :=
  let cs := setStatusTrue h.completion_status h.current_section
  { h with completion_status := cs,
           current_section := sections.find? (fun s => !getStatus cs s) }

/-- The section dispatch of HistoryManager.update_history (lines 69-80). -/
def apply_section_update (h : PatientHistory) (ext : Json) : Option PatientHistory :=
  match h.current_section with
  | some "basic_info" => update_basic_info h ext
  | some "medications" =>
    (update_list_section medEntry ext h.medications).map (fun l => { h with medications := l })
  | some "allergies" =>
    (update_list_section allergyEntry ext h.allergies).map (fun l => { h with allergies := l })
  | some "chronic_conditions" =>
    (update_list_section conditionEntry ext h.chronic_conditions).map
      (fun l => { h with chronic_conditions := l })
  | some "surgeries" =>
    (update_list_section surgeryEntry ext h.surgeries).map (fun l => { h with surgeries := l })
  | some "family_history" =>
    (update_list_section familyEntry ext h.family_history).map
      (fun l => { h with family_history := l })
  | _ => some h

/-- HistoryManager.update_history.  Returns `none` where Python raises inside
a section update (such states keep the pre-update completion flags and active
section, so the claims below are insensitive to them); otherwise the flag
says whether the no-extracted-data early return was avoided. -/
def update_history (sections : List String) (now : ℕ) (h : PatientHistory) (info : Obj) :
    Option (Bool × PatientHistory) :=
  if !getTruthy info "extracted" then some (false, h)
  else do
    let h1 ← apply_section_update h ((getVal info "extracted").getD .null)
    let h2 := if getTruthy info "is_complete" then mark_section_complete sections h1 else h1
    some (true, { h2 with last_updated := now })

/-- HistoryManager._clean_list loop: drop duplicates and blank entries,
preserving first-appearance order (`seen` is the membership set). -/
def clean_list_go (seen : List String) : List String → List String
  | [] => []
  | x :: xs =>
    if x ∉ seen ∧ pyStrip x ≠ "" then x :: clean_list_go (x :: seen) xs
    else clean_list_go seen xs

/-- HistoryManager._clean_list. -/
def clean_list (l : List String) : List String := clean_list_go [] l

/-- HistoryManager._clean_allergies loop: as clean_list, but an "Unknown"
entry is additionally skipped once anything has been kept. -/
def clean_allergies_go (seen : List String) : List String → List String
  | [] => []
  | a :: as =>
    if a ∉ seen ∧ pyStrip a ≠ "" then
      if a = "Unknown" ∧ seen ≠ [] then clean_allergies_go seen as
      else a :: clean_allergies_go (a :: seen) as
    else clean_allergies_go seen as

/-- HistoryManager._clean_allergies. -/
def clean_allergies (l : List String) : List String :=
  if l.all (fun a => a = "Unknown") then (if l.isEmpty then [] else ["Unknown"])
  else clean_allergies_go [] l

/-- HistoryManager.clean_patient_history. -/
def clean_patient_history (h : PatientHistory) : PatientHistory :=
  { h with medications := clean_list h.medications,
           allergies := clean_allergies h.allergies,
           chronic_conditions := clean_list h.chronic_conditions,
           surgeries := clean_list h.surgeries,
           family_history := clean_list h.family_history }

/-- Records reachable from a fresh PatientHistory (api.py creates records
with only the patient id, every other field defaulted) by successful merge
and clean operations, the two record-mutating operations of the core. -/
inductive Reachable : PatientHistory → Prop where
  | init (pid : String) : Reachable { patient_id := pid }
  | merge (now : ℕ) (info : Obj) (b : Bool) (h h' : PatientHistory) :
      Reachable h → update_history chatbot_sections now h info = some (b, h') → Reachable h'
  | clean (h : PatientHistory) : Reachable h → Reachable (clean_patient_history h)

/-! ### Association-list lemmas -/

theorem getVal_setVal_self (o : Obj) (k : String) (v : Json) :
    getVal (setVal o k v) k = some v := by
  induction o with
  | nil => simp [setVal, getVal]
  | cons p rest ih =>
    obtain ⟨k', v'⟩ := p
    by_cases hk : k' = k
    · simp [setVal, hk, getVal]
    · simp only [setVal, if_neg hk, getVal, List.find?]
      have : (decide (k' = k)) = false := by simpa using hk
      simpa [this, getVal] using ih

theorem getVal_setVal_ne (o : Obj) (k k' : String) (v : Json) (hne : k' ≠ k) :
    getVal (setVal o k v) k' = getVal o k' := by
  induction o with
  | nil => simp [setVal, getVal, List.find?, Ne.symm hne]
  | cons p rest ih =>
    obtain ⟨k0, v0⟩ := p
    by_cases hk : k0 = k
    · subst hk
      simp only [setVal, if_pos rfl, getVal, List.find?]
      have h1 : (decide (k0 = k')) = false := by
        simpa using fun h => hne h.symm
      simp [h1]
    · simp only [setVal, if_neg hk, getVal, List.find?]
      cases hd : decide (k0 = k') with
      | true => simp
      | false => simpa [getVal] using ih

theorem hasKey_setVal (o : Obj) (k k' : String) (v : Json) :
    hasKey (setVal o k v) k' = (k' = k || hasKey o k') := by
  by_cases hk : k' = k
  · subst hk; simp [hasKey, getVal_setVal_self]
  · simp [hasKey, getVal_setVal_ne o k k' v hk, hk]

theorem getVal_defaultFlags (d : Obj) (k : String)
    (h1 : k ≠ "is_complete") (h2 : k ≠ "needs_clarification") :
    getVal (defaultFlags d) k = getVal d k := by
  unfold defaultFlags
  by_cases hic : hasKey d "is_complete" = true
  · simp only [hic, if_true]
    by_cases hnc : hasKey d "needs_clarification" = true
    · simp [hnc]
    · simp [hnc, getVal_setVal_ne _ _ _ _ h2]
  · simp only [hic, if_false, Bool.false_eq_true]
    by_cases hnc : hasKey (setVal d "is_complete" (.bool false)) "needs_clarification" = true
    · simp [hnc, getVal_setVal_ne _ _ _ _ h1]
    · simp [hnc, getVal_setVal_ne _ _ _ _ h1, getVal_setVal_ne _ _ _ _ h2]

theorem hasKey_defaultFlags_is_complete (d : Obj) :
    hasKey (defaultFlags d) "is_complete" = true := by
  unfold defaultFlags
  by_cases hic : hasKey d "is_complete" = true
  · rw [if_pos hic]
    by_cases hnc : hasKey d "needs_clarification" = true
    · rw [if_pos hnc]; exact hic
    · rw [if_neg hnc, hasKey_setVal]; simp [hic]
  · rw [if_neg hic]
    have hset : hasKey (setVal d "is_complete" (.bool false)) "is_complete" = true := by
      simp [hasKey, getVal_setVal_self]
    by_cases hnc : hasKey (setVal d "is_complete" (.bool false)) "needs_clarification" = true
    · rw [if_pos hnc]; exact hset
    · rw [if_neg hnc, hasKey_setVal]; simp [hset]

theorem hasKey_defaultFlags_needs_clarification (d : Obj) :
    hasKey (defaultFlags d) "needs_clarification" = true := by
  unfold defaultFlags
  by_cases hic : hasKey d "is_complete" = true
  · rw [if_pos hic]
    by_cases hnc : hasKey d "needs_clarification" = true
    · rw [if_pos hnc]; exact hnc
    · rw [if_neg hnc]; simp [hasKey, getVal_setVal_self]
  · rw [if_neg hic]
    by_cases hnc : hasKey (setVal d "is_complete" (.bool false)) "needs_clarification" = true
    · rw [if_pos hnc]; exact hnc
    · rw [if_neg hnc]; simp [hasKey, getVal_setVal_self]

theorem getVal_defaultFlags_ic_of_missing (d : Obj) (h : hasKey d "is_complete" = false) :
    getVal (defaultFlags d) "is_complete" = some (.bool false) := by
  unfold defaultFlags
  have hic : ¬hasKey d "is_complete" = true := by simp [h]
  rw [if_neg hic]
  have hset : getVal (setVal d "is_complete" (.bool false)) "is_complete" = some (.bool false) :=
    getVal_setVal_self d "is_complete" (.bool false)
  by_cases hnc : hasKey (setVal d "is_complete" (.bool false)) "needs_clarification" = true
  · rw [if_pos hnc]; exact hset
  · rw [if_neg hnc, getVal_setVal_ne _ _ _ _ (by decide)]; exact hset

theorem getVal_defaultFlags_nc_of_missing (d : Obj) (h : hasKey d "needs_clarification" = false) :
    getVal (defaultFlags d) "needs_clarification" = some (.bool false) := by
  unfold defaultFlags
  by_cases hic : hasKey d "is_complete" = true
  · rw [if_pos hic]
    have hnc : ¬hasKey d "needs_clarification" = true := by simp [h]
    rw [if_neg hnc]
    exact getVal_setVal_self d "needs_clarification" (.bool false)
  · rw [if_neg hic]
    have h2 : ¬hasKey (setVal d "is_complete" (.bool false)) "needs_clarification" = true := by
      rw [hasKey_setVal]; simp [h]
    rw [if_neg h2]
    exact getVal_setVal_self _ "needs_clarification" (.bool false)

/-- The missing-field defaulting loop of the basic_info branch of
validate_and_normalize_extracted_data preserves present bindings. -/
theorem getVal_addMissing (fs : List String) (e0 : Obj) (k : String) (v : Json)
    (h : getVal e0 k = some v) :
    getVal (fs.foldl (fun e f => if hasKey e f then e else setVal e f .null) e0) k = some v := by
  induction fs generalizing e0 with
  | nil => simpa using h
  | cons f0 rest ih =>
    simp only [List.foldl_cons]
    apply ih
    by_cases hk : hasKey e0 f0 = true
    · rw [if_pos hk]; exact h
    · rw [if_neg hk]
      have hne : k ≠ f0 := by
        intro he
        subst he
        simp [hasKey, h] at hk
      rw [getVal_setVal_ne _ _ _ _ hne]; exact h

/-- The missing-field defaulting loop binds absent listed fields to null. -/
theorem getVal_addMissing_of_missing (fs : List String) (e0 : Obj) (f : String)
    (hf : f ∈ fs) (h : getVal e0 f = none) :
    getVal (fs.foldl (fun e f => if hasKey e f then e else setVal e f .null) e0) f =
      some .null := by
  induction fs generalizing e0 with
  | nil => simp at hf
  | cons f0 rest ih =>
    simp only [List.foldl_cons]
    by_cases hef : f = f0
    · subst hef
      have hk : ¬hasKey e0 f = true := by simp [hasKey, h]
      rw [if_neg hk]
      exact getVal_addMissing rest _ f .null (getVal_setVal_self e0 f .null)
    · have hmem : f ∈ rest := by
        rcases List.mem_cons.mp hf with h1 | h1
        · exact absurd h1 hef
        · exact h1
      by_cases hk : hasKey e0 f0 = true
      · rw [if_pos hk]; exact ih e0 hmem h
      · rw [if_neg hk]
        exact ih _ hmem (by rw [getVal_setVal_ne _ _ _ _ hef]; exact h)

/-- After the defaulting loop every listed field is bound. -/
theorem isSome_addMissing (fs : List String) (e0 : Obj) (f : String) (hf : f ∈ fs) :
    (getVal (fs.foldl (fun e f => if hasKey e f then e else setVal e f .null) e0) f).isSome
      = true := by
  cases hv : getVal e0 f with
  | none => rw [getVal_addMissing_of_missing fs e0 f hf hv]; rfl
  | some v => rw [getVal_addMissing fs e0 f v hv]; rfl

/-! ### Closed forms of the Normalizer -/

theorem normalize_basic_of_obj (d : Obj) (e : Obj) (h : getVal d "extracted" = some (.obj e)) :
    validate_and_normalize_extracted_data d (some "basic_info") =
      some (defaultFlags (setVal d "extracted"
        (.obj (basic_fields.foldl (fun e f => if hasKey e f then e else setVal e f .null) e)))) := by
  have hk : hasKey d "extracted" = true := by simp [hasKey, h]
  simp only [validate_and_normalize_extracted_data, hk, if_true, if_pos rfl, h]

theorem normalize_basic_of_missing (d : Obj) (h : hasKey d "extracted" = false) :
    validate_and_normalize_extracted_data d (some "basic_info") =
      some (defaultFlags (setVal (setVal d "extracted" (.obj [])) "extracted"
        (.obj (basic_fields.foldl (fun e f => if hasKey e f then e else setVal e f .null) [])))) := by
  simp only [validate_and_normalize_extracted_data, h, Bool.false_eq_true, if_false, if_pos rfl,
    getVal_setVal_self]
  exact if_pos trivial

theorem normalize_basic_of_nonobj (d : Obj) (v : Json) (h : getVal d "extracted" = some v)
    (hv : ∀ f : Obj, v ≠ .obj f) :
    validate_and_normalize_extracted_data d (some "basic_info") =
      some (defaultFlags (setVal d "extracted"
        (.obj (basic_fields.foldl (fun e f => if hasKey e f then e else setVal e f .null) [])))) := by
  have hk : hasKey d "extracted" = true := by simp [hasKey, h]
  cases v with
  | obj f => exact absurd rfl (hv f)
  | null => simp only [validate_and_normalize_extracted_data, hk, if_true, if_pos rfl, h]
  | bool b => simp only [validate_and_normalize_extracted_data, hk, if_true, if_pos rfl, h]
  | num q => simp only [validate_and_normalize_extracted_data, hk, if_true, if_pos rfl, h]
  | str s => simp only [validate_and_normalize_extracted_data, hk, if_true, if_pos rfl, h]
  | arr l => simp only [validate_and_normalize_extracted_data, hk, if_true, if_pos rfl, h]

theorem normalize_list_of_obj (d : Obj) (e : Obj) (sec : Option String)
    (hsec : sec ≠ some "basic_info") (h : getVal d "extracted" = some (.obj e)) :
    validate_and_normalize_extracted_data d sec =
      some (defaultFlags (setVal d "extracted"
        (.obj (match getVal e "items" with
               | none => setVal e "items" (.arr [])
               | some (.arr _) => e
               | some v => if truthy v then setVal e "items" (.arr [v])
                           else setVal e "items" (.arr []))))) := by
  have hk : hasKey d "extracted" = true := by simp [hasKey, h]
  simp only [validate_and_normalize_extracted_data, hk, if_true, if_neg hsec, h]

theorem normalize_list_obj_items_none (d : Obj) (e : Obj) (sec : Option String)
    (hsec : sec ≠ some "basic_info") (h : getVal d "extracted" = some (.obj e))
    (hitems : getVal e "items" = none) :
    validate_and_normalize_extracted_data d sec =
      some (defaultFlags (setVal d "extracted" (.obj (setVal e "items" (.arr []))))) := by
  rw [normalize_list_of_obj d e sec hsec h, hitems]

theorem normalize_list_obj_items_arr (d : Obj) (e : Obj) (sec : Option String)
    (hsec : sec ≠ some "basic_info") (h : getVal d "extracted" = some (.obj e))
    (l0 : List Json) (hitems : getVal e "items" = some (.arr l0)) :
    validate_and_normalize_extracted_data d sec =
      some (defaultFlags (setVal d "extracted" (.obj e))) := by
  rw [normalize_list_of_obj d e sec hsec h, hitems]

theorem normalize_list_obj_items_truthy (d : Obj) (e : Obj) (sec : Option String)
    (hsec : sec ≠ some "basic_info") (h : getVal d "extracted" = some (.obj e))
    (v : Json) (hitems : getVal e "items" = some v) (hv : ∀ l0 : List Json, v ≠ .arr l0)
    (htr : truthy v = true) :
    validate_and_normalize_extracted_data d sec =
      some (defaultFlags (setVal d "extracted" (.obj (setVal e "items" (.arr [v]))))) := by
  rw [normalize_list_of_obj d e sec hsec h, hitems]
  cases v with
  | arr l0 => exact absurd rfl (hv l0)
  | null => cases htr
  | bool b => simp [htr]
  | num q => simp [htr]
  | str t => simp [htr]
  | obj f => simp [htr]

theorem normalize_list_obj_items_falsy (d : Obj) (e : Obj) (sec : Option String)
    (hsec : sec ≠ some "basic_info") (h : getVal d "extracted" = some (.obj e))
    (v : Json) (hitems : getVal e "items" = some v) (hv : ∀ l0 : List Json, v ≠ .arr l0)
    (htr : truthy v = false) :
    validate_and_normalize_extracted_data d sec =
      some (defaultFlags (setVal d "extracted" (.obj (setVal e "items" (.arr []))))) := by
  rw [normalize_list_of_obj d e sec hsec h, hitems]
  cases v with
  | arr l0 => exact absurd rfl (hv l0)
  | null => rfl
  | bool b => simp [htr]
  | num q => simp [htr]
  | str t => simp [htr]
  | obj f => simp [htr]

theorem normalize_list_of_missing (d : Obj) (sec : Option String)
    (hsec : sec ≠ some "basic_info") (h : hasKey d "extracted" = false) :
    validate_and_normalize_extracted_data d sec =
      some (defaultFlags (setVal (setVal d "extracted" (.obj [])) "extracted"
        (.obj [("items", .arr [])]))) := by
  simp only [validate_and_normalize_extracted_data, h, Bool.false_eq_true, if_false, if_neg hsec,
    getVal_setVal_self]
  rfl

theorem normalize_list_of_nonobj (d : Obj) (v : Json) (sec : Option String)
    (hsec : sec ≠ some "basic_info") (h : getVal d "extracted" = some v)
    (hv : ∀ f : Obj, v ≠ .obj f) :
    validate_and_normalize_extracted_data d sec = none := by
  have hk : hasKey d "extracted" = true := by simp [hasKey, h]
  cases v with
  | obj f => exact absurd rfl (hv f)
  | null => simp only [validate_and_normalize_extracted_data, hk, if_true, if_neg hsec, h]
  | bool b => simp only [validate_and_normalize_extracted_data, hk, if_true, if_neg hsec, h]
  | num q => simp only [validate_and_normalize_extracted_data, hk, if_true, if_neg hsec, h]
  | str s => simp only [validate_and_normalize_extracted_data, hk, if_true, if_neg hsec, h]
  | arr l => simp only [validate_and_normalize_extracted_data, hk, if_true, if_neg hsec, h]

/-! ### Claim C5 -/

/-- C5, counterexample: the Normalizer is not total.  For the section
`medications` and the JSON object `(\x7b"extracted": "hello"\x7d)` the Python
function raises a TypeError (`"items" not in "hello"` is a substring test and
the subsequent item assignment on a str fails), modelled as `none`. -/
theorem c5_counterexample :
    validate_and_normalize_extracted_data [("extracted", .str "hello")] (some "medications")
      = none := rfl

/-- C5 (amended): the Normalizer succeeds whenever the extracted value is an
object (and, for basic_info, on any input); for a non-basic_info section with
a present non-object extracted value it raises.  On success: the extracted
key is present; for basic_info the extracted object binds at least the five
scalar fields (missing ones to null, input bindings — including extra keys —
preserved); for every other section extracted.items is a list (a bare
non-list truthy value wrapped as a singleton, a missing or falsy value
becoming the empty list); is_complete and needs_clarification are bound,
defaulting to false when absent from the input. -/
theorem c5_normalizer (d : Obj) (sec : Option String) :
    (validate_and_normalize_extracted_data d sec = none ↔
      (sec ≠ some "basic_info" ∧ ∃ v, getVal d "extracted" = some v ∧ ∀ f : Obj, v ≠ .obj f)) ∧
    (∀ out, validate_and_normalize_extracted_data d sec = some out →
      (∃ v, getVal out "extracted" = some v) ∧
      (getVal out "is_complete").isSome = true ∧
      (getVal out "needs_clarification").isSome = true ∧
      (hasKey d "is_complete" = false → getVal out "is_complete" = some (.bool false)) ∧
      (hasKey d "needs_clarification" = false →
        getVal out "needs_clarification" = some (.bool false)) ∧
      (sec = some "basic_info" →
        ∃ e', getVal out "extracted" = some (.obj e') ∧
          (∀ f ∈ basic_fields, (getVal e' f).isSome = true) ∧
          (∀ e : Obj, getVal d "extracted" = some (.obj e) →
            (∀ k v, getVal e k = some v → getVal e' k = some v) ∧
            (∀ f ∈ basic_fields, getVal e f = none → getVal e' f = some .null)) ∧
          ((getVal d "extracted" = none ∨
              (∃ v, getVal d "extracted" = some v ∧ ∀ f : Obj, v ≠ .obj f)) →
            ∀ f ∈ basic_fields, getVal e' f = some .null)) ∧
      (sec ≠ some "basic_info" →
        ∃ e' l, getVal out "extracted" = some (.obj e') ∧ getVal e' "items" = some (.arr l) ∧
          (∀ e : Obj, getVal d "extracted" = some (.obj e) →
            (getVal e "items" = none → l = []) ∧
            (∀ l0, getVal e "items" = some (.arr l0) → l = l0) ∧
            (∀ v, getVal e "items" = some v → truthy v = true → (∀ l0, v ≠ .arr l0) → l = [v]) ∧
            (∀ v, getVal e "items" = some v → truthy v = false → (∀ l0, v ≠ .arr l0) →
              l = [])))) := by
  have hexkey : ∀ X : Obj, ∀ E : Obj,
      getVal (defaultFlags (setVal X "extracted" (.obj E))) "extracted" = some (.obj E) := by
    intro X E
    rw [getVal_defaultFlags _ _ (by decide) (by decide), getVal_setVal_self]
  have hicpass : ∀ X : Obj, ∀ E : Obj, hasKey X "is_complete" = false →
      getVal (defaultFlags (setVal X "extracted" (.obj E))) "is_complete" = some (.bool false) := by
    intro X E hX
    apply getVal_defaultFlags_ic_of_missing
    rw [hasKey_setVal]
    simpa using hX
  have hncpass : ∀ X : Obj, ∀ E : Obj, hasKey X "needs_clarification" = false →
      getVal (defaultFlags (setVal X "extracted" (.obj E))) "needs_clarification"
        = some (.bool false) := by
    intro X E hX
    apply getVal_defaultFlags_nc_of_missing
    rw [hasKey_setVal]
    simpa using hX
  have hsetkeep : ∀ Y : Obj, ∀ (k : String) (w : Json), k ≠ "extracted" →
      hasKey (setVal Y "extracted" w) k = hasKey Y k := by
    intro Y k w hk
    rw [hasKey_setVal]
    simp [hk]
  by_cases hsec : sec = some "basic_info"
  · subst hsec
    cases hx : getVal d "extracted" with
    | none =>
      have hk : hasKey d "extracted" = false := by simp [hasKey, hx]
      rw [normalize_basic_of_missing d hk]
      constructor
      · constructor
        · intro hnone; cases hnone
        · rintro ⟨hne, -⟩; exact absurd rfl hne
      · intro out hout
        obtain rfl : _ = out := Option.some.inj hout
        refine ⟨⟨_, hexkey _ _⟩, hasKey_defaultFlags_is_complete _,
          hasKey_defaultFlags_needs_clarification _, ?_, ?_, ?_, fun hne => absurd rfl hne⟩
        · intro hic
          exact hicpass _ _ (by
            rw [hsetkeep _ _ _ (by decide)]
            exact hic)
        · intro hnc
          exact hncpass _ _ (by
            rw [hsetkeep _ _ _ (by decide)]
            exact hnc)
        · intro _
          refine ⟨_, hexkey _ _, fun f hf => isSome_addMissing _ _ f hf, ?_, ?_⟩
          · intro e he; cases he
          · intro _ f hf
            exact getVal_addMissing_of_missing _ [] f hf rfl
    | some v =>
      have hk : hasKey d "extracted" = true := by simp [hasKey, hx]
      by_cases hobj : ∃ e : Obj, v = .obj e
      · obtain ⟨e, rfl⟩ := hobj
        rw [normalize_basic_of_obj d e hx]
        constructor
        · constructor
          · intro hnone; cases hnone
          · rintro ⟨hne, -⟩; exact absurd rfl hne
        · intro out hout
          obtain rfl : _ = out := Option.some.inj hout
          refine ⟨⟨_, hexkey _ _⟩, hasKey_defaultFlags_is_complete _,
            hasKey_defaultFlags_needs_clarification _, ?_, ?_, ?_, fun hne => absurd rfl hne⟩
          · intro hic; exact hicpass _ _ hic
          · intro hnc; exact hncpass _ _ hnc
          · intro _
            refine ⟨_, hexkey _ _, fun f hf => isSome_addMissing _ _ f hf, ?_, ?_⟩
            · intro e2 he2
              obtain rfl : e = e2 := Json.obj.inj (Option.some.inj he2)
              exact ⟨fun k w hw => getVal_addMissing _ _ k w hw,
                fun f hf hnone => getVal_addMissing_of_missing _ _ f hf hnone⟩
            · rintro (hcontr | ⟨w, hw, hwno⟩) f hf
              · cases hcontr
              · exact absurd (Option.some.inj hw).symm (hwno e)
      · have hvno : ∀ f : Obj, v ≠ .obj f := by
          intro f hf; exact hobj ⟨f, hf⟩
        rw [normalize_basic_of_nonobj d v hx hvno]
        constructor
        · constructor
          · intro hnone; cases hnone
          · rintro ⟨hne, -⟩; exact absurd rfl hne
        · intro out hout
          obtain rfl : _ = out := Option.some.inj hout
          refine ⟨⟨_, hexkey _ _⟩, hasKey_defaultFlags_is_complete _,
            hasKey_defaultFlags_needs_clarification _, ?_, ?_, ?_, fun hne => absurd rfl hne⟩
          · intro hic; exact hicpass _ _ hic
          · intro hnc; exact hncpass _ _ hnc
          · intro _
            refine ⟨_, hexkey _ _, fun f hf => isSome_addMissing _ _ f hf, ?_, ?_⟩
            · intro e2 he2
              exact absurd (Option.some.inj he2) (hvno e2)
            · intro _ f hf
              exact getVal_addMissing_of_missing _ [] f hf rfl
  · cases hx : getVal d "extracted" with
    | none =>
      have hk : hasKey d "extracted" = false := by simp [hasKey, hx]
      rw [normalize_list_of_missing d sec hsec hk]
      constructor
      · constructor
        · intro hnone; cases hnone
        · rintro ⟨-, w, hw, -⟩; cases hw
      · intro out hout
        obtain rfl : _ = out := Option.some.inj hout
        refine ⟨⟨_, hexkey _ _⟩, hasKey_defaultFlags_is_complete _,
          hasKey_defaultFlags_needs_clarification _, ?_, ?_, fun habs => absurd habs hsec, ?_⟩
        · intro hic; exact hicpass _ _ (by rw [hsetkeep _ _ _ (by decide)]; exact hic)
        · intro hnc; exact hncpass _ _ (by rw [hsetkeep _ _ _ (by decide)]; exact hnc)
        · intro _
          refine ⟨_, [], hexkey _ _, rfl, ?_⟩
          intro e he; cases he
    | some v =>
      by_cases hobj : ∃ e : Obj, v = .obj e
      · obtain ⟨e, rfl⟩ := hobj
        cases hitems : getVal e "items" with
        | none =>
          rw [normalize_list_obj_items_none d e sec hsec hx hitems]
          constructor
          · constructor
            · intro hnone; cases hnone
            · rintro ⟨-, w, hw, hwno⟩
              exact absurd (Option.some.inj hw).symm (hwno e)
          · intro out hout
            obtain rfl : _ = out := Option.some.inj hout
            refine ⟨⟨_, hexkey _ _⟩, hasKey_defaultFlags_is_complete _,
              hasKey_defaultFlags_needs_clarification _, ?_, ?_, fun habs => absurd habs hsec, ?_⟩
            · intro hic; exact hicpass _ _ hic
            · intro hnc; exact hncpass _ _ hnc
            · intro _
              refine ⟨_, [], hexkey _ _, getVal_setVal_self e "items" (.arr []), ?_⟩
              intro e2 he2
              obtain rfl : e = e2 := Json.obj.inj (Option.some.inj he2)
              refine ⟨fun _ => rfl, ?_, ?_, ?_⟩
              · intro l1 hl1; exact Option.noConfusion (hitems.symm.trans hl1)
              · intro u hu _ _; exact Option.noConfusion (hitems.symm.trans hu)
              · intro u hu _ _; exact Option.noConfusion (hitems.symm.trans hu)
        | some w =>
          by_cases harr : ∃ l0 : List Json, w = .arr l0
          · obtain ⟨l0, rfl⟩ := harr
            rw [normalize_list_obj_items_arr d e sec hsec hx l0 hitems]
            constructor
            · constructor
              · intro hnone; cases hnone
              · rintro ⟨-, w, hw, hwno⟩
                exact absurd (Option.some.inj hw).symm (hwno e)
            · intro out hout
              obtain rfl : _ = out := Option.some.inj hout
              refine ⟨⟨_, hexkey _ _⟩, hasKey_defaultFlags_is_complete _,
                hasKey_defaultFlags_needs_clarification _, ?_, ?_,
                fun habs => absurd habs hsec, ?_⟩
              · intro hic; exact hicpass _ _ hic
              · intro hnc; exact hncpass _ _ hnc
              · intro _
                refine ⟨e, l0, hexkey _ _, hitems, ?_⟩
                intro e2 he2
                obtain rfl : e = e2 := Json.obj.inj (Option.some.inj he2)
                refine ⟨?_, ?_, ?_, ?_⟩
                · intro habs; exact Option.noConfusion (hitems.symm.trans habs)
                · intro l1 hl1
                  exact Json.arr.inj (Option.some.inj (hitems.symm.trans hl1))
                · intro u hu _ hune
                  exact absurd (Option.some.inj (hitems.symm.trans hu)).symm (hune l0)
                · intro u hu _ hune
                  exact absurd (Option.some.inj (hitems.symm.trans hu)).symm (hune l0)
          · have hwno : ∀ l0 : List Json, w ≠ .arr l0 := fun l0 hl0 => harr ⟨l0, hl0⟩
            cases htr : truthy w with
            | true =>
              rw [normalize_list_obj_items_truthy d e sec hsec hx w hitems hwno htr]
              constructor
              · constructor
                · intro hnone; cases hnone
                · rintro ⟨-, u, hu, huno⟩
                  exact absurd (Option.some.inj hu).symm (huno e)
              · intro out hout
                obtain rfl : _ = out := Option.some.inj hout
                refine ⟨⟨_, hexkey _ _⟩, hasKey_defaultFlags_is_complete _,
                  hasKey_defaultFlags_needs_clarification _, ?_, ?_,
                  fun habs => absurd habs hsec, ?_⟩
                · intro hic; exact hicpass _ _ hic
                · intro hnc; exact hncpass _ _ hnc
                · intro _
                  refine ⟨_, [w], hexkey _ _, getVal_setVal_self e "items" (.arr [w]), ?_⟩
                  intro e2 he2
                  obtain rfl : e = e2 := Json.obj.inj (Option.some.inj he2)
                  refine ⟨?_, ?_, ?_, ?_⟩
                  · intro habs; exact Option.noConfusion (hitems.symm.trans habs)
                  · intro l1 hl1
                    exact absurd (Option.some.inj (hitems.symm.trans hl1)) (hwno l1)
                  · intro u hu _ _
                    obtain rfl : w = u := Option.some.inj (hitems.symm.trans hu)
                    rfl
                  · intro u hu hfalse _
                    obtain rfl : w = u := Option.some.inj (hitems.symm.trans hu)
                    exact Bool.noConfusion (htr.symm.trans hfalse)
            | false =>
              rw [normalize_list_obj_items_falsy d e sec hsec hx w hitems hwno htr]
              constructor
              · constructor
                · intro hnone; cases hnone
                · rintro ⟨-, u, hu, huno⟩
                  exact absurd (Option.some.inj hu).symm (huno e)
              · intro out hout
                obtain rfl : _ = out := Option.some.inj hout
                refine ⟨⟨_, hexkey _ _⟩, hasKey_defaultFlags_is_complete _,
                  hasKey_defaultFlags_needs_clarification _, ?_, ?_,
                  fun habs => absurd habs hsec, ?_⟩
                · intro hic; exact hicpass _ _ hic
                · intro hnc; exact hncpass _ _ hnc
                · intro _
                  refine ⟨_, [], hexkey _ _, getVal_setVal_self e "items" (.arr []), ?_⟩
                  intro e2 he2
                  obtain rfl : e = e2 := Json.obj.inj (Option.some.inj he2)
                  refine ⟨?_, ?_, ?_, ?_⟩
                  · intro habs; exact Option.noConfusion (hitems.symm.trans habs)
                  · intro l1 hl1
                    exact absurd (Option.some.inj (hitems.symm.trans hl1)) (hwno l1)
                  · intro u hu htru _
                    obtain rfl : w = u := Option.some.inj (hitems.symm.trans hu)
                    exact Bool.noConfusion (htr.symm.trans htru)
                  · intro _ _ _ _
                    rfl
      · have hvno : ∀ f : Obj, v ≠ .obj f := fun f hf => hobj ⟨f, hf⟩
        rw [normalize_list_of_nonobj d v sec hsec hx hvno]
        constructor
        · constructor
          · intro _; exact ⟨hsec, v, rfl, hvno⟩
          · intro _; rfl
        · intro out hout; cases hout

/-! ### Claim C2 -/

theorem truthy_false_of_isNullOrEmptyStr (v : Json) (h : isNullOrEmptyStr v = true) :
    truthy v = false := by
  cases v <;> simp_all [isNullOrEmptyStr, truthy]

theorem getTruthy_false_of_isNullOrEmptyStr (e : Obj) (f : String)
    (h : isNullOrEmptyStr ((getVal e f).getD .null) = true) : getTruthy e f = false := by
  unfold getTruthy
  cases hv : getVal e f with
  | none => rfl
  | some v =>
    rw [hv] at h
    exact truthy_false_of_isNullOrEmptyStr v h

/-- C2 (confirmed): after the Coordinator's basic_info completeness
validation, is_complete is exactly the conjunction "name is neither null nor
the empty string" and "age is neither null nor the empty string", regardless
of the flag claimed by the generator; whenever that conjunction fails,
needs_clarification is set true and the clarification message names every
required field that is null or empty.  The hypotheses say the data carries a
non-empty extracted object, which the Normalizer guarantees for every
basic_info extraction reaching this step. -/
theorem c2_basic_info_gating (data : Obj) (e : Obj)
    (hx : getVal data "extracted" = some (.obj e)) (hne : truthy (.obj e) = true) :
    ∃ out, validate_basic_info_completeness data = some out ∧
      (getVal out "is_complete" = some (.bool true) ↔
        (isNullOrEmptyStr ((getVal e "name").getD .null) = false ∧
         isNullOrEmptyStr ((getVal e "age").getD .null) = false)) ∧
      (¬(isNullOrEmptyStr ((getVal e "name").getD .null) = false ∧
         isNullOrEmptyStr ((getVal e "age").getD .null) = false) →
        getVal out "needs_clarification" = some (.bool true) ∧
        ∃ m, getVal out "clarification_message" = some (.str m) ∧
          ∀ f ∈ required_basic_fields,
            isNullOrEmptyStr ((getVal e f).getD .null) = true → containsSub m f = true) := by
  cases hc : required_basic_fields.all (fun f => !isNullOrEmptyStr ((getVal e f).getD .null)) with
  | true =>
    have hname : isNullOrEmptyStr ((getVal e "name").getD .null) = false := by
      have := hc
      simp only [required_basic_fields, List.all_cons, List.all_nil, Bool.and_true,
        Bool.and_eq_true, Bool.not_eq_true'] at this
      exact this.1
    have hage : isNullOrEmptyStr ((getVal e "age").getD .null) = false := by
      have := hc
      simp only [required_basic_fields, List.all_cons, List.all_nil, Bool.and_true,
        Bool.and_eq_true, Bool.not_eq_true'] at this
      exact this.2
    refine ⟨setVal data "is_complete" (.bool true), ?_, ?_, ?_⟩
    · simp only [validate_basic_info_completeness, hx, hne, Bool.not_true, Bool.false_eq_true,
        if_false, hc, if_true]
    · rw [getVal_setVal_self]
      exact ⟨fun _ => ⟨hname, hage⟩, fun _ => rfl⟩
    · intro habs; exact absurd ⟨hname, hage⟩ habs
  | false =>
    have hmiss : ¬(isNullOrEmptyStr ((getVal e "name").getD .null) = false ∧
        isNullOrEmptyStr ((getVal e "age").getD .null) = false) := by
      intro ⟨h1, h2⟩
      rw [show required_basic_fields.all (fun f => !isNullOrEmptyStr ((getVal e f).getD .null))
            = true by
          simp only [required_basic_fields, List.all_cons, List.all_nil, Bool.and_true,
            Bool.and_eq_true, Bool.not_eq_true']
          exact ⟨h1, h2⟩] at hc
      cases hc
    refine ⟨setVal (setVal (setVal data "is_complete" (.bool false))
        "needs_clarification" (.bool true)) "clarification_message"
        (.str ("Please provide: " ++
          String.intercalate ", " (required_basic_fields.filter (fun f => !getTruthy e f)) ++
          ". For weight, specify units (kg or lbs).")), ?_, ?_, ?_⟩
    · simp only [validate_basic_info_completeness, hx, hne, Bool.not_true, Bool.false_eq_true,
        if_false, hc]
    · rw [getVal_setVal_ne _ _ _ _ (by decide), getVal_setVal_ne _ _ _ _ (by decide),
        getVal_setVal_self]
      constructor
      · intro hb; cases Json.bool.inj (Option.some.inj hb)
      · intro hb; exact absurd hb hmiss
    · intro _
      constructor
      · rw [getVal_setVal_ne _ _ _ _ (by decide), getVal_setVal_self]
      · refine ⟨_, getVal_setVal_self _ _ _, ?_⟩
        intro f hf hnull
        have hfcase : f = "name" ∨ f = "age" := by
          simpa [required_basic_fields] using hf
        have htruthyf : getTruthy e f = false := getTruthy_false_of_isNullOrEmptyStr e f hnull
        cases hna : getTruthy e "name" with
        | true =>
          cases haa : getTruthy e "age" with
          | true =>
            rcases hfcase with rfl | rfl
            · rw [hna] at htruthyf; cases htruthyf
            · rw [haa] at htruthyf; cases htruthyf
          | false =>
            rcases hfcase with rfl | rfl
            · rw [hna] at htruthyf; cases htruthyf
            · simp only [required_basic_fields, List.filter, hna, haa]
              decide
        | false =>
          cases haa : getTruthy e "age" with
          | true =>
            rcases hfcase with rfl | rfl
            · simp only [required_basic_fields, List.filter, hna, haa]
              decide
            · rw [haa] at htruthyf; cases htruthyf
          | false =>
            rcases hfcase with rfl | rfl <;>
              · simp only [required_basic_fields, List.filter, hna, haa]
                decide

/-- The extracted object of the C2 witness: name present, age null. -/
def c2e : Obj := [("name", .str "John"), ("age", .null)]

/-- The C2 witness extraction: the generator claims is_complete with name
present but age null. -/
def c2data : Obj := [("extracted", .obj c2e), ("is_complete", .bool true)]

/-- C2 witness: the gating theorem applied to the concrete extraction that
claims completeness with a null age. -/
theorem c2_basic_info_gating_witness :
    (getVal c2data "extracted" = some (.obj c2e) ∧ truthy (.obj c2e) = true) ∧
    (∃ out, validate_basic_info_completeness c2data = some out ∧
      (getVal out "is_complete" = some (.bool true) ↔
        (isNullOrEmptyStr ((getVal c2e "name").getD .null) = false ∧
         isNullOrEmptyStr ((getVal c2e "age").getD .null) = false)) ∧
      (¬(isNullOrEmptyStr ((getVal c2e "name").getD .null) = false ∧
         isNullOrEmptyStr ((getVal c2e "age").getD .null) = false) →
        getVal out "needs_clarification" = some (.bool true) ∧
        ∃ m, getVal out "clarification_message" = some (.str m) ∧
          ∀ f ∈ required_basic_fields,
            isNullOrEmptyStr ((getVal c2e f).getD .null) = true → containsSub m f = true)) :=
  ⟨⟨rfl, rfl⟩, c2_basic_info_gating c2data c2e rfl rfl⟩

/-- C5 witness input: an extracted object with one of the five fields plus an
extra generator-supplied key. -/
def c5d : Obj := [("extracted", .obj [("name", .str "x"), ("foo", .num 1)])]

/-- The Normalizer's output on `c5d` for basic_info. -/
def c5out : Obj :=
  [("extracted", .obj [("name", .str "x"), ("foo", .num 1), ("age", .null),
      ("gender", .null), ("height", .null), ("weight", .null)]),
   ("is_complete", .bool false), ("needs_clarification", .bool false)]

/-- C5 witness: the amended normalizer theorem applied at a concrete
basic_info input. -/
theorem c5_normalizer_witness :
    validate_and_normalize_extracted_data c5d (some "basic_info") = some c5out ∧
    (∃ v, getVal c5out "extracted" = some v) ∧
    getVal c5out "is_complete" = some (.bool false) := by
  have h := (c5_normalizer c5d (some "basic_info")).2 c5out rfl
  exact ⟨rfl, h.1, h.2.2.2.1 rfl⟩

/-! ### Claim C4 -/

theorem containsSubAux_append_right (pat l1 l2 : List Char)
    (h : containsSubAux pat l2 = true) : containsSubAux pat (l1 ++ l2) = true := by
  induction l1 with
  | nil => simpa using h
  | cons c rest ih =>
    simp only [List.cons_append, containsSubAux, Bool.or_eq_true]
    exact Or.inr ih

theorem containsSub_append_right (s1 s2 pat : String) (h : containsSub s2 pat = true) :
    containsSub (s1 ++ s2) pat = true := by
  unfold containsSub
  rw [String.data_append]
  exact containsSubAux_append_right pat.data s1.data s2.data h

/-- Output shape of the basic_info completeness validation as needed for the
weight step: the extracted object passes through untouched, and any
clarification message it installs mentions the weight units. -/
theorem validate_basic_info_mid (data : Obj) (e : Obj)
    (hx : getVal data "extracted" = some (.obj e)) (hne : truthy (.obj e) = true)
    (hcm : hasKey data "clarification_message" = false) :
    ∃ mid, validate_basic_info_completeness data = some mid ∧
      getVal mid "extracted" = some (.obj e) ∧
      (hasKey mid "clarification_message" = false ∨
       ∃ M, getVal mid "clarification_message" = some (.str M) ∧
         containsSub M "kg or lbs" = true) := by
  cases hc : required_basic_fields.all (fun f => !isNullOrEmptyStr ((getVal e f).getD .null)) with
  | true =>
    refine ⟨setVal data "is_complete" (.bool true), ?_, ?_, Or.inl ?_⟩
    · simp only [validate_basic_info_completeness, hx, hne, Bool.not_true, Bool.false_eq_true,
        if_false, hc, if_true]
    · rw [getVal_setVal_ne _ _ _ _ (by decide)]; exact hx
    · rw [hasKey_setVal]; simpa using hcm
  | false =>
    refine ⟨setVal (setVal (setVal data "is_complete" (.bool false))
        "needs_clarification" (.bool true)) "clarification_message"
        (.str ("Please provide: " ++
          String.intercalate ", " (required_basic_fields.filter (fun f => !getTruthy e f)) ++
          ". For weight, specify units (kg or lbs).")), ?_, ?_,
      Or.inr ⟨"Please provide: " ++
          String.intercalate ", " (required_basic_fields.filter (fun f => !getTruthy e f)) ++
          ". For weight, specify units (kg or lbs).", ?_, ?_⟩⟩
    · simp only [validate_basic_info_completeness, hx, hne, Bool.not_true, Bool.false_eq_true,
        if_false, hc]
    · rw [getVal_setVal_ne _ _ _ _ (by decide), getVal_setVal_ne _ _ _ _ (by decide),
        getVal_setVal_ne _ _ _ _ (by decide)]
      exact hx
    · exact getVal_setVal_self _ _ _
    · exact containsSub_append_right _ _ _ (by decide)

/-- Closed form of _normalize_weight on a numeric weight. -/
theorem normalize_weight_num (mid : Obj) (e : Obj) (q : ℚ)
    (hmx : getVal mid "extracted" = some (.obj e)) (hne : truthy (.obj e) = true)
    (hwq : getVal e "weight" = some (.num q)) :
    normalize_weight mid =
      some (setVal mid "extracted" (.obj (setVal e "weight" (.num (round2 q))))) := by
  simp only [normalize_weight, hmx, hne, Bool.not_true, Bool.false_eq_true, if_false, hwq]

/-- Closed form of _normalize_weight on a text weight whose first decimal
number exists. -/
theorem normalize_weight_str_some (mid : Obj) (e : Obj) (s : String) (q : ℚ)
    (hmx : getVal mid "extracted" = some (.obj e)) (hne : truthy (.obj e) = true)
    (hws : getVal e "weight" = some (.str s))
    (hn : extractFirstNumber (pyStrip (pyLower s)) = some q) :
    normalize_weight mid =
      some (setVal mid "extracted" (.obj (setVal e "weight" (.num (round2
        (if containsSub (pyStrip (pyLower s)) "lb" || containsSub (pyStrip (pyLower s)) "pound"
         then q * lbsToKg else q)))))) := by
  simp only [normalize_weight, hmx, hne, Bool.not_true, Bool.false_eq_true, if_false, hws, hn]

/-- Closed form of _normalize_weight on a text weight with no extractable
number: the weight becomes null, needs_clarification is forced, and the
units message is installed only when no clarification message exists yet. -/
theorem normalize_weight_str_none (mid : Obj) (e : Obj) (s : String)
    (hmx : getVal mid "extracted" = some (.obj e)) (hne : truthy (.obj e) = true)
    (hws : getVal e "weight" = some (.str s))
    (hn : extractFirstNumber (pyStrip (pyLower s)) = none) :
    normalize_weight mid =
      some (if hasKey (setVal (setVal mid "extracted" (.obj (setVal e "weight" .null)))
              "needs_clarification" (.bool true)) "clarification_message"
            then setVal (setVal mid "extracted" (.obj (setVal e "weight" .null)))
              "needs_clarification" (.bool true)
            else setVal (setVal (setVal mid "extracted" (.obj (setVal e "weight" .null)))
              "needs_clarification" (.bool true)) "clarification_message"
              (.str "Please provide weight in kg or lbs (e.g., 70 kg or 150 lbs)")) := by
  simp only [normalize_weight, hmx, hne, Bool.not_true, Bool.false_eq_true, if_false, hws, hn]

/-- C4 (confirmed): the Coordinator's basic_info post-validation normalizes a
present weight to kilograms — a numeric value is rounded to 2 decimals as-is;
for a text value the first decimal number of the pattern match is taken,
multiplied by 0.453592 exactly when the lowered text contains an "lb" or
"pound" marker, and rounded to 2 decimals; when no number can be extracted
the weight becomes null, needs_clarification is forced true, and the result
carries a clarification message mentioning "kg or lbs".  The hypotheses state
that the data is a normalized extraction (non-empty extracted object, no
generator-supplied clarification_message — the extraction JSON contract has
no such key) whose weight is numeric or text. -/
theorem c4_weight_normalization (data : Obj) (e : Obj) (w : Json)
    (hx : getVal data "extracted" = some (.obj e)) (hne : truthy (.obj e) = true)
    (hcm : hasKey data "clarification_message" = false)
    (hw : getVal e "weight" = some w)
    (hshape : (∃ q, w = .num q) ∨ (∃ s, w = .str s)) :
    ∃ out e', basic_info_post_validation data = some out ∧
      getVal out "extracted" = some (.obj e') ∧
      (∀ q, w = .num q → getVal e' "weight" = some (.num (round2 q))) ∧
      (∀ s, w = .str s →
        (∀ q, extractFirstNumber (pyStrip (pyLower s)) = some q →
          getVal e' "weight" = some (.num (round2
            (if containsSub (pyStrip (pyLower s)) "lb" || containsSub (pyStrip (pyLower s)) "pound"
             then q * lbsToKg else q)))) ∧
        (extractFirstNumber (pyStrip (pyLower s)) = none →
          getVal e' "weight" = some .null ∧
          getVal out "needs_clarification" = some (.bool true) ∧
          ∃ m, getVal out "clarification_message" = some (.str m) ∧
            containsSub m "kg or lbs" = true)) := by
  obtain ⟨mid, hmid, hmx, hmsg⟩ := validate_basic_info_mid data e hx hne hcm
  have hpost : basic_info_post_validation data = normalize_weight mid := by
    simp [basic_info_post_validation, hmid]
  rcases hshape with ⟨q, rfl⟩ | ⟨s, rfl⟩
  · rw [hpost, normalize_weight_num mid e q hmx hne hw]
    refine ⟨_, setVal e "weight" (.num (round2 q)), rfl, getVal_setVal_self _ _ _, ?_, ?_⟩
    · intro q' hq'
      obtain rfl : q = q' := Json.num.inj hq'
      exact getVal_setVal_self _ _ _
    · intro s hs; cases hs
  · cases hn : extractFirstNumber (pyStrip (pyLower s)) with
    | some q =>
      rw [hpost, normalize_weight_str_some mid e s q hmx hne hw hn]
      refine ⟨_, setVal e "weight" (.num (round2
        (if containsSub (pyStrip (pyLower s)) "lb" || containsSub (pyStrip (pyLower s)) "pound"
         then q * lbsToKg else q))), rfl, getVal_setVal_self _ _ _, ?_, ?_⟩
      · intro q' hq'; cases hq'
      · intro s' hs'
        obtain rfl : s = s' := Json.str.inj hs'
        constructor
        · intro q' hq'
          obtain rfl : q = q' := Option.some.inj (hn.symm.trans hq')
          exact getVal_setVal_self _ _ _
        · intro habs; exact Option.noConfusion (hn.symm.trans habs)
    | none =>
      rw [hpost, normalize_weight_str_none mid e s hmx hne hw hn]
      have hgetex : ∀ X : Obj,
          getVal (setVal (setVal (setVal mid "extracted" (.obj (setVal e "weight" .null)))
            "needs_clarification" (.bool true)) "clarification_message" (.str
              "Please provide weight in kg or lbs (e.g., 70 kg or 150 lbs)")) "extracted"
          = some (.obj (setVal e "weight" .null)) := by
        intro _
        rw [getVal_setVal_ne _ _ _ _ (by decide), getVal_setVal_ne _ _ _ _ (by decide),
          getVal_setVal_self]
      have hk2 : hasKey (setVal (setVal mid "extracted" (.obj (setVal e "weight" .null)))
          "needs_clarification" (.bool true)) "clarification_message" = hasKey mid
            "clarification_message" := by
        rw [hasKey_setVal, hasKey_setVal]
        simp
      rcases hmsg with hnone | ⟨M, hM, hMc⟩
      · have hkey : hasKey (setVal (setVal mid "extracted" (.obj (setVal e "weight" .null)))
            "needs_clarification" (.bool true)) "clarification_message" = false := by
          rw [hk2]; exact hnone
        rw [if_neg (by simp [hkey])]
        refine ⟨_, setVal e "weight" .null, rfl, hgetex mid, ?_, ?_⟩
        · intro q' hq'; cases hq'
        · intro s' hs'
          obtain rfl : s = s' := Json.str.inj hs'
          constructor
          · intro q' hq'; exact Option.noConfusion (hn.symm.trans hq')
          · intro _
            refine ⟨getVal_setVal_self _ _ _, ?_, ?_⟩
            · rw [getVal_setVal_ne _ _ _ _ (by decide), getVal_setVal_self]
            · exact ⟨_, getVal_setVal_self _ _ _, by decide⟩
      · have hkey : hasKey (setVal (setVal mid "extracted" (.obj (setVal e "weight" .null)))
            "needs_clarification" (.bool true)) "clarification_message" = true := by
          rw [hk2]; simp [hasKey, hM]
        rw [if_pos hkey]
        refine ⟨_, setVal e "weight" .null, rfl, ?_, ?_, ?_⟩
        · rw [getVal_setVal_ne _ _ _ _ (by decide), getVal_setVal_self]
        · intro q' hq'; cases hq'
        · intro s' hs'
          obtain rfl : s = s' := Json.str.inj hs'
          constructor
          · intro q' hq'; exact Option.noConfusion (hn.symm.trans hq')
          · intro _
            refine ⟨getVal_setVal_self _ _ _, getVal_setVal_self _ _ _, ⟨M, ?_, hMc⟩⟩
            rw [getVal_setVal_ne _ _ _ _ (by decide), getVal_setVal_ne _ _ _ _ (by decide)]
            exact hM

/-- C4 witness extraction payloads: a text weight in pounds and the same
weight already numeric (claimed equal by the spec example). -/
def c4e : Obj := [("name", .str "John"), ("age", .num 30), ("weight", .str "150 lbs")]

/-- C4 witness data with a pounds text weight. -/
def c4data : Obj := [("extracted", .obj c4e)]

/-- C4 witness payload with the numeric kilogram weight. -/
def c4e2 : Obj := [("name", .str "John"), ("age", .num 30), ("weight", .num (6804 / 100))]

/-- C4 witness data with the numeric weight. -/
def c4data2 : Obj := [("extracted", .obj c4e2)]

/-- C4 witness: the weight-normalization theorem applied at the two concrete
inputs of the spec example — "150 lbs" and 68.04 both normalize to 68.04. -/
theorem c4_weight_normalization_witness :
    (∃ out e', basic_info_post_validation c4data = some out ∧
       getVal out "extracted" = some (.obj e') ∧
       getVal e' "weight" = some (.num (6804 / 100))) ∧
    (∃ out e', basic_info_post_validation c4data2 = some out ∧
       getVal out "extracted" = some (.obj e') ∧
       getVal e' "weight" = some (.num (6804 / 100))) := by
  constructor
  · obtain ⟨out, e', h1, h2, -, h4⟩ :=
      c4_weight_normalization c4data c4e (.str "150 lbs") rfl rfl rfl rfl
        (Or.inr ⟨"150 lbs", rfl⟩)
    have hmatch : firstNumberMatch (pyStrip (pyLower "150 lbs")).data
        = some (['1', '5', '0'], []) := by decide
    have hnum : extractFirstNumber (pyStrip (pyLower "150 lbs")) = some 150 := by
      simp only [extractFirstNumber, hmatch, Option.map, matchToRat,
        show digitsToNat ['1', '5', '0'] = 150 from by decide,
        show digitsToNat [] = 0 from by decide]
      norm_num
    have h5 := (h4 "150 lbs" rfl).1 150 hnum
    have hcond : (containsSub (pyStrip (pyLower "150 lbs")) "lb" ||
        containsSub (pyStrip (pyLower "150 lbs")) "pound") = true := by decide
    rw [if_pos hcond] at h5
    have hX : round2 (150 * lbsToKg) = 6804 / 100 := by
      norm_num [round2, roundHalfEven, lbsToKg]
    rw [hX] at h5
    exact ⟨out, e', h1, h2, h5⟩
  · obtain ⟨out, e', h1, h2, h3, -⟩ :=
      c4_weight_normalization c4data2 c4e2 (.num (6804 / 100)) rfl rfl rfl rfl
        (Or.inl ⟨6804 / 100, rfl⟩)
    have h5 := h3 (6804 / 100) rfl
    have hX : round2 ((6804 : ℚ) / 100) = 6804 / 100 := by
      norm_num [round2, roundHalfEven]
    rw [hX] at h5
    exact ⟨out, e', h1, h2, h5⟩

/-! ### Structure of the merge operation -/

theorem update_basic_info_preserves (h : PatientHistory) (ext : Json) (h1 : PatientHistory)
    (hu : update_basic_info h ext = some h1) :
    h1.current_section = h.current_section ∧ h1.completion_status = h.completion_status ∧
      h1.last_updated = h.last_updated ∧ h1.patient_id = h.patient_id := by
  cases ext with
  | obj e =>
    obtain rfl : _ = h1 := Option.some.inj hu
    exact ⟨rfl, rfl, rfl, rfl⟩
  | str s =>
    have hu' : (if basic_fields.any (fun k => containsSub s k) then none else some h)
        = some h1 := hu
    split at hu'
    · cases hu'
    · obtain rfl : h = h1 := Option.some.inj hu'
      exact ⟨rfl, rfl, rfl, rfl⟩
  | arr l =>
    have hu' : (if basic_fields.any
          (fun k => l.any (fun j => match j with | .str t => t == k | _ => false))
        then none else some h) = some h1 := hu
    split at hu'
    · cases hu'
    · obtain rfl : h = h1 := Option.some.inj hu'
      exact ⟨rfl, rfl, rfl, rfl⟩
  | null => exact Option.noConfusion hu
  | bool b => exact Option.noConfusion hu
  | num q => exact Option.noConfusion hu

theorem apply_section_update_preserves (h : PatientHistory) (ext : Json) (h1 : PatientHistory)
    (hu : apply_section_update h ext = some h1) :
    h1.current_section = h.current_section ∧ h1.completion_status = h.completion_status ∧
      h1.last_updated = h.last_updated ∧ h1.patient_id = h.patient_id := by
  unfold apply_section_update at hu
  split at hu
  · exact update_basic_info_preserves h ext h1 hu
  · cases hl : update_list_section medEntry ext h.medications with
    | none => rw [hl] at hu; cases hu
    | some l =>
      rw [hl] at hu
      obtain rfl : _ = h1 := Option.some.inj hu
      exact ⟨rfl, rfl, rfl, rfl⟩
  · cases hl : update_list_section allergyEntry ext h.allergies with
    | none => rw [hl] at hu; cases hu
    | some l =>
      rw [hl] at hu
      obtain rfl : _ = h1 := Option.some.inj hu
      exact ⟨rfl, rfl, rfl, rfl⟩
  · cases hl : update_list_section conditionEntry ext h.chronic_conditions with
    | none => rw [hl] at hu; cases hu
    | some l =>
      rw [hl] at hu
      obtain rfl : _ = h1 := Option.some.inj hu
      exact ⟨rfl, rfl, rfl, rfl⟩
  · cases hl : update_list_section surgeryEntry ext h.surgeries with
    | none => rw [hl] at hu; cases hu
    | some l =>
      rw [hl] at hu
      obtain rfl : _ = h1 := Option.some.inj hu
      exact ⟨rfl, rfl, rfl, rfl⟩
  · cases hl : update_list_section familyEntry ext h.family_history with
    | none => rw [hl] at hu; cases hu
    | some l =>
      rw [hl] at hu
      obtain rfl : _ = h1 := Option.some.inj hu
      exact ⟨rfl, rfl, rfl, rfl⟩
  · obtain rfl : h = h1 := Option.some.inj hu
    exact ⟨rfl, rfl, rfl, rfl⟩

theorem update_history_cases (sections : List String) (now : ℕ) (h : PatientHistory)
    (info : Obj) (b : Bool) (h1 : PatientHistory)
    (hu : update_history sections now h info = some (b, h1)) :
    (b = false ∧ getTruthy info "extracted" = false ∧ h1 = h) ∨
    (b = true ∧ getTruthy info "extracted" = true ∧
     ∃ hm, apply_section_update h ((getVal info "extracted").getD .null) = some hm ∧
       ((getTruthy info "is_complete" = false ∧ h1 = { hm with last_updated := now }) ∨
        (getTruthy info "is_complete" = true ∧
         h1 = { mark_section_complete sections hm with last_updated := now }))) := by
  unfold update_history at hu
  cases hext : getTruthy info "extracted" with
  | false =>
    rw [hext] at hu
    simp only [Bool.not_false, if_true] at hu
    have hp : ((false, h) : Bool × PatientHistory) = (b, h1) := Option.some.inj hu
    exact Or.inl ⟨(congrArg Prod.fst hp).symm, rfl, (congrArg Prod.snd hp).symm⟩
  | true =>
    rw [hext] at hu
    simp only [Bool.not_true, Bool.false_eq_true, if_false, Option.bind_eq_bind] at hu
    cases happ : apply_section_update h ((getVal info "extracted").getD .null) with
    | none => rw [happ] at hu; cases hu
    | some hm =>
      rw [happ] at hu
      simp only [Option.some_bind] at hu
      cases hic : getTruthy info "is_complete" with
      | false =>
        rw [hic] at hu
        simp only [Bool.false_eq_true, if_false] at hu
        have hp : ((true, { hm with last_updated := now }) : Bool × PatientHistory) = (b, h1) :=
          Option.some.inj hu
        exact Or.inr ⟨(congrArg Prod.fst hp).symm, rfl, hm, rfl,
          Or.inl ⟨rfl, (congrArg Prod.snd hp).symm⟩⟩
      | true =>
        rw [hic] at hu
        simp only [if_true] at hu
        have hp : ((true, { mark_section_complete sections hm with last_updated := now }) :
            Bool × PatientHistory) = (b, h1) := Option.some.inj hu
        exact Or.inr ⟨(congrArg Prod.fst hp).symm, rfl, hm, rfl,
          Or.inr ⟨rfl, (congrArg Prod.snd hp).symm⟩⟩

theorem getStatus_setStatusTrue_mono (cs : List (Option String × Bool)) (k : Option String)
    (s : String) (h : getStatus cs s = true) : getStatus (setStatusTrue cs k) s = true := by
  induction cs with
  | nil => simp [getStatus] at h
  | cons p rest ih =>
    obtain ⟨k0, v0⟩ := p
    by_cases hk : k0 = k
    · subst hk
      simp only [setStatusTrue, if_pos rfl]
      by_cases hks : k0 = some s
      · simp [getStatus, hks]
      · have hd : (decide (k0 = some s)) = false := by simpa using hks
        simp only [getStatus, List.find?, hd] at h ⊢
        exact h
    · simp only [setStatusTrue, if_neg hk]
      by_cases hks : k0 = some s
      · have hd : (decide (k0 = some s)) = true := by simp [hks]
        simp only [getStatus, List.find?, hd] at h ⊢
        simpa using h
      · have hd : (decide (k0 = some s)) = false := by simpa using hks
        simp only [getStatus, List.find?, hd] at h ⊢
        exact ih h

/-! ### Claim C3 -/

/-- C3, counterexample: merging an extraction that adds nothing new still
returns true.  The record already holds the medication "Aspirin"; the
extraction delivers the same item, nothing is overwritten, appended, or
completed (only the timestamp moves), yet update_history returns true where
the claim requires false. -/
theorem c3_counterexample :
    update_history chatbot_sections 5
      { patient_id := "p", current_section := some "medications", medications := ["Aspirin"] }
      [("extracted", .obj [("items", .arr [.str "Aspirin"])])]
    = some (true, { patient_id := "p", current_section := some "medications",
                    medications := ["Aspirin"], last_updated := 5 }) := rfl

/-- C3 (amended): update_history returns false exactly when the extracted
payload is absent or falsy (in which case the record is untouched); whenever
a truthy extracted payload is present and the update raises no exception it
returns true, whether or not any field changed. -/
theorem c3_update_history_flag (sections : List String) (now : ℕ) (h : PatientHistory)
    (info : Obj) (b : Bool) (h1 : PatientHistory)
    (hu : update_history sections now h info = some (b, h1)) :
    (b = false ↔ getTruthy info "extracted" = false) ∧ (b = false → h1 = h) := by
  rcases update_history_cases sections now h info b h1 hu with
    ⟨hb, hext, hh⟩ | ⟨hb, hext, -⟩
  · subst hb
    exact ⟨⟨fun _ => hext, fun _ => rfl⟩, fun _ => hh⟩
  · subst hb
    exact ⟨⟨fun hc => Bool.noConfusion hc, fun hc => Bool.noConfusion (hext.symm.trans hc)⟩,
      fun hc => Bool.noConfusion hc⟩

/-- C3 witness: the amended flag theorem applied at the concrete no-op merge
of the counterexample record. -/
theorem c3_update_history_flag_witness :
    (true = false ↔
      getTruthy [("extracted", .obj [("items", .arr [.str "Aspirin"])])] "extracted" = false) ∧
    (true = false →
      ({ patient_id := "p", current_section := some "medications",
         medications := ["Aspirin"], last_updated := 5 } : PatientHistory)
      = { patient_id := "p", current_section := some "medications",
          medications := ["Aspirin"] }) :=
  c3_update_history_flag chatbot_sections 5
    { patient_id := "p", current_section := some "medications", medications := ["Aspirin"] }
    [("extracted", .obj [("items", .arr [.str "Aspirin"])])] true
    { patient_id := "p", current_section := some "medications",
      medications := ["Aspirin"], last_updated := 5 } rfl

/-! ### Claim C6 -/

/-- The section-advance invariant: the active section is the first section in
canonical order whose completion flag is false (none when all are true). -/
def section_invariant (h : PatientHistory) : Prop :=
  h.current_section = chatbot_sections.find? (fun s => !getStatus h.completion_status s)

theorem flags_mono_update (sections : List String) (now : ℕ) (h : PatientHistory)
    (info : Obj) (b : Bool) (h1 : PatientHistory)
    (hu : update_history sections now h info = some (b, h1)) (s : String)
    (hs : getStatus h.completion_status s = true) :
    getStatus h1.completion_status s = true := by
  rcases update_history_cases sections now h info b h1 hu with
    ⟨-, -, rfl⟩ | ⟨-, -, hm, happ, hrest⟩
  · exact hs
  · obtain ⟨-, hcs, -, -⟩ := apply_section_update_preserves h _ hm happ
    rcases hrest with ⟨-, rfl⟩ | ⟨-, rfl⟩
    · show getStatus hm.completion_status s = true
      rw [hcs]; exact hs
    · show getStatus (mark_section_complete sections hm).completion_status s = true
      show getStatus (setStatusTrue hm.completion_status hm.current_section) s = true
      apply getStatus_setStatusTrue_mono
      rw [hcs]; exact hs

theorem invariant_of_reachable (h : PatientHistory) (hr : Reachable h) :
    section_invariant h := by
  induction hr with
  | init pid => rfl
  | merge now info b h h1 hr hu ih =>
    rcases update_history_cases chatbot_sections now h info b h1 hu with
      ⟨-, -, rfl⟩ | ⟨-, -, hm, happ, hrest⟩
    · exact ih
    · obtain ⟨hcur, hcs, -, -⟩ := apply_section_update_preserves h _ hm happ
      rcases hrest with ⟨-, rfl⟩ | ⟨-, rfl⟩
      · show hm.current_section = chatbot_sections.find? (fun s => !getStatus hm.completion_status s)
        rw [hcur, hcs]; exact ih
      · show (mark_section_complete chatbot_sections hm).current_section =
          chatbot_sections.find?
            (fun s => !getStatus (mark_section_complete chatbot_sections hm).completion_status s)
        rfl
  | clean h hr ih => exact ih

/-- C6 (confirmed): in every record reachable from a fresh record by merge
and clean operations, the active section is the first section in canonical
order whose completion flag is false (none exactly when every flag is true),
completion flags are never reset by a merge, and cleaning never touches
them.  (In particular, with only basic_info complete, a merge marking
medications complete advances the active section to allergies — see the
witness.) -/
theorem c6_section_state_machine (h : PatientHistory) (hr : Reachable h) :
    section_invariant h ∧
    (h.current_section = none ↔ ∀ s ∈ chatbot_sections, getStatus h.completion_status s = true) ∧
    (∀ now info b h1, update_history chatbot_sections now h info = some (b, h1) →
      ∀ s, getStatus h.completion_status s = true → getStatus h1.completion_status s = true) ∧
    (∀ s, getStatus h.completion_status s = true →
      getStatus (clean_patient_history h).completion_status s = true) := by
  have hinv := invariant_of_reachable h hr
  refine ⟨hinv, ?_, fun now info b h1 hu s hs => flags_mono_update _ now h info b h1 hu s hs,
    fun s hs => hs⟩
  rw [hinv]
  rw [List.find?_eq_none]
  constructor
  · intro hall s hsmem
    have := hall s hsmem
    simpa using this
  · intro hall s hsmem
    simp [hall s hsmem]

/-- First C6 witness merge: a complete basic_info extraction. -/
def c6info1 : Obj :=
  [("extracted", .obj [("name", .str "John"), ("age", .num 30)]), ("is_complete", .bool true)]

/-- Record after the first witness merge: basic_info complete, active section
medications. -/
def c6h1 : PatientHistory :=
  { patient_id := "p", name := .str "John", age := .num 30,
    current_section := some "medications",
    completion_status := [(some "basic_info", true), (some "medications", false),
      (some "allergies", false), (some "chronic_conditions", false),
      (some "surgeries", false), (some "family_history", false)] }

/-- Second C6 witness merge: an empty but complete medications extraction. -/
def c6info2 : Obj := [("extracted", .obj [("items", .arr [])]), ("is_complete", .bool true)]

/-- Record after the second witness merge: medications also complete, active
section advanced to allergies (the next false flag, not skipping ahead). -/
def c6h2 : PatientHistory :=
  { patient_id := "p", name := .str "John", age := .num 30,
    current_section := some "allergies", last_updated := 1,
    completion_status := [(some "basic_info", true), (some "medications", true),
      (some "allergies", false), (some "chronic_conditions", false),
      (some "surgeries", false), (some "family_history", false)] }

/-- C6 witness: the state-machine theorem applied to the record reached by
completing basic_info and then medications; the active section is allergies. -/
theorem c6_section_state_machine_witness :
    section_invariant c6h2 ∧ c6h2.current_section = some "allergies" := by
  have hreach : Reachable c6h2 :=
    Reachable.merge 1 c6info2 true c6h1 c6h2
      (Reachable.merge 0 c6info1 true { patient_id := "p" } c6h1 (Reachable.init "p") rfl) rfl
  exact ⟨(c6_section_state_machine c6h2 hreach).1, rfl⟩

/-! ### Claim C7 -/

/-- C7, counterexample: at merge time the sentinel is NOT suppressed by the
presence of a concrete entry.  The record holds the concrete allergy
"Peanuts"; merging a further sentinel "Unknown" appends it (only exact-string
dedup applies), where the claim requires it not to be appended. -/
theorem c7_counterexample :
    update_history chatbot_sections 7
      { patient_id := "p", current_section := some "allergies", allergies := ["Peanuts"] }
      [("extracted", .obj [("items", .arr [.str "Unknown"])])]
    = some (true, { patient_id := "p", current_section := some "allergies",
                    allergies := ["Peanuts", "Unknown"], last_updated := 7 }) := rfl

/-- Merging a single string allergy item reduces to a guarded append. -/
theorem update_list_section_single_str (entry : Obj → Except EntryFault String) (l : List String)
    (a : String) :
    update_list_section entry (.obj [("items", .arr [.str a])]) l =
      some (if pyStrip a ≠ "" ∧ a ∉ l then l ++ [a] else l) := rfl

/-- Once something has been kept, the allergy cleaning loop never keeps a
sentinel. -/
theorem unknown_not_mem_clean_allergies_go (l : List String) :
    ∀ seen : List String, seen ≠ [] → "Unknown" ∉ clean_allergies_go seen l := by
  induction l with
  | nil => intro seen _; simp [clean_allergies_go]
  | cons a as ih =>
    intro seen hseen
    simp only [clean_allergies_go]
    split
    · split
      · exact ih seen hseen
      · rename_i hkeep hnotU
        intro hmem
        rcases List.mem_cons.mp hmem with heq | hmem2
        · exact hnotU ⟨heq.symm, hseen⟩
        · exact ih (a :: seen) (by simp) hmem2
    · exact ih seen hseen

/-- C7 (amended): if the existing allergy list consists solely of the
sentinel "Unknown", merging a new concrete allergy extends the list; merging
a further sentinel merely deduplicates (it is appended whenever "Unknown" is
not already present verbatim, even when concrete entries exist — suppression
does not happen at merge time); the suppression of sentinels behind a
concrete entry is performed by the cleaning operation, which drops every
sentinel occurring after a kept concrete first entry. -/
theorem c7_allergy_sentinel :
    (∀ (l : List String) (a : String), (∀ x ∈ l, x = "Unknown") → pyStrip a ≠ "" → a ∉ l →
      update_list_section allergyEntry (.obj [("items", .arr [.str a])]) l = some (l ++ [a])) ∧
    (∀ l : List String, "Unknown" ∈ l →
      update_list_section allergyEntry (.obj [("items", .arr [.str "Unknown"])]) l = some l) ∧
    (∀ (c : String) (rest : List String), c ≠ "Unknown" → pyStrip c ≠ "" →
      "Unknown" ∉ clean_allergies (c :: rest)) := by
  refine ⟨?_, ?_, ?_⟩
  · intro l a hall hstrip hnot
    rw [update_list_section_single_str, if_pos ⟨hstrip, hnot⟩]
  · intro l hmem
    rw [update_list_section_single_str, if_neg (fun hc => hc.2 hmem)]
  · intro c rest hc hcs
    unfold clean_allergies
    have hall : ¬((c :: rest).all (fun a => a = "Unknown") = true) := by
      simp only [List.all_cons, Bool.and_eq_true, decide_eq_true_eq]
      rintro ⟨hceq, -⟩
      exact hc hceq
    rw [if_neg hall]
    simp only [clean_allergies_go]
    rw [if_pos ⟨List.not_mem_nil c, hcs⟩, if_neg (fun hc2 => hc2.2 rfl)]
    intro hmem
    rcases List.mem_cons.mp hmem with heq | hmem2
    · exact hc heq.symm
    · exact unknown_not_mem_clean_allergies_go rest [c] (by simp) hmem2

/-- C7 witness: the amended sentinel theorem applied to concrete lists — a
concrete allergy extends the sole-sentinel list, a duplicate sentinel is not
re-appended, and cleaning ["Peanuts", "Unknown"] drops the sentinel. -/
theorem c7_allergy_sentinel_witness :
    update_list_section allergyEntry (.obj [("items", .arr [.str "Peanuts"])]) ["Unknown"]
      = some ["Unknown", "Peanuts"] ∧
    update_list_section allergyEntry (.obj [("items", .arr [.str "Unknown"])])
      ["Peanuts", "Unknown"] = some ["Peanuts", "Unknown"] ∧
    "Unknown" ∉ clean_allergies ["Peanuts", "Unknown"] :=
  ⟨c7_allergy_sentinel.1 ["Unknown"] "Peanuts" (by decide) (by decide) (by decide),
   c7_allergy_sentinel.2.1 ["Peanuts", "Unknown"] (by decide),
   c7_allergy_sentinel.2.2 "Peanuts" ["Unknown"] (by decide) (by decide)⟩

/-! ### Claim C9 -/

theorem clean_list_go_mem (l : List String) :
    ∀ (seen : List String), ∀ x ∈ clean_list_go seen l, x ∉ seen ∧ pyStrip x ≠ "" := by
  induction l with
  | nil => intro seen x hx; simp [clean_list_go] at hx
  | cons a as ih =>
    intro seen x hx
    simp only [clean_list_go] at hx
    split at hx
    · rename_i hkeep
      rcases List.mem_cons.mp hx with rfl | hx2
      · exact hkeep
      · have := ih (a :: seen) x hx2
        exact ⟨fun hs => this.1 (List.mem_cons_of_mem _ hs), this.2⟩
    · exact ih seen x hx

theorem clean_list_go_nodup (l : List String) :
    ∀ seen : List String, (clean_list_go seen l).Nodup := by
  induction l with
  | nil => intro seen; simp [clean_list_go]
  | cons a as ih =>
    intro seen
    simp only [clean_list_go]
    split
    · refine List.Nodup.cons ?_ (ih (a :: seen))
      intro hmem
      exact (clean_list_go_mem as (a :: seen) a hmem).1 (List.mem_cons_self a seen)
    · exact ih seen

theorem clean_list_go_noop (l : List String) :
    ∀ seen : List String, l.Nodup → (∀ x ∈ l, pyStrip x ≠ "" ∧ x ∉ seen) →
      clean_list_go seen l = l := by
  induction l with
  | nil => intro seen _ _; rfl
  | cons a as ih =>
    intro seen hnd hall
    obtain ⟨hstrip, hmem⟩ := hall a (List.mem_cons_self a as)
    simp only [clean_list_go]
    rw [if_pos ⟨hmem, hstrip⟩]
    congr 1
    refine ih (a :: seen) (List.Nodup.of_cons hnd) ?_
    intro x hx
    refine ⟨(hall x (List.mem_cons_of_mem a hx)).1, ?_⟩
    intro hc
    rcases List.mem_cons.mp hc with rfl | hc2
    · exact (List.nodup_cons.mp hnd).1 hx
    · exact (hall x (List.mem_cons_of_mem a hx)).2 hc2

theorem clean_list_idem (l : List String) : clean_list (clean_list l) = clean_list l := by
  unfold clean_list
  refine clean_list_go_noop _ [] (clean_list_go_nodup l []) ?_
  intro x hx
  exact ⟨(clean_list_go_mem l [] x hx).2, List.not_mem_nil x⟩

theorem clean_allergies_go_mem (l : List String) :
    ∀ (seen : List String), ∀ x ∈ clean_allergies_go seen l, x ∉ seen ∧ pyStrip x ≠ "" := by
  induction l with
  | nil => intro seen x hx; simp [clean_allergies_go] at hx
  | cons a as ih =>
    intro seen x hx
    simp only [clean_allergies_go] at hx
    split at hx
    · rename_i hkeep
      split at hx
      · exact ih seen x hx
      · rcases List.mem_cons.mp hx with rfl | hx2
        · exact hkeep
        · have := ih (a :: seen) x hx2
          exact ⟨fun hs => this.1 (List.mem_cons_of_mem _ hs), this.2⟩
    · exact ih seen x hx

theorem clean_allergies_go_nodup (l : List String) :
    ∀ seen : List String, (clean_allergies_go seen l).Nodup := by
  induction l with
  | nil => intro seen; simp [clean_allergies_go]
  | cons a as ih =>
    intro seen
    simp only [clean_allergies_go]
    split
    · split
      · exact ih seen
      · refine List.Nodup.cons ?_ (ih (a :: seen))
        intro hmem
        exact (clean_allergies_go_mem as (a :: seen) a hmem).1 (List.mem_cons_self a seen)
    · exact ih seen

theorem clean_allergies_go_unknown_head (l : List String)
    (hmem : "Unknown" ∈ clean_allergies_go [] l) :
    (clean_allergies_go [] l).head? = some "Unknown" := by
  induction l with
  | nil => simp [clean_allergies_go] at hmem
  | cons a as ih =>
    simp only [clean_allergies_go] at hmem ⊢
    by_cases hkeep : a ∉ ([] : List String) ∧ pyStrip a ≠ ""
    · rw [if_pos hkeep] at hmem ⊢
      rw [if_neg (fun hc : a = "Unknown" ∧ ([] : List String) ≠ [] => hc.2 rfl)] at hmem ⊢
      rcases List.mem_cons.mp hmem with heq | hmem2
      · rw [List.head?_cons, ← heq]
      · exact absurd hmem2 (unknown_not_mem_clean_allergies_go as [a] (by simp))
    · rw [if_neg hkeep] at hmem ⊢
      exact ih hmem

theorem clean_allergies_go_noop (l : List String) :
    ∀ seen : List String, l.Nodup → (∀ x ∈ l, pyStrip x ≠ "" ∧ x ∉ seen) →
      ("Unknown" ∈ l → l.head? = some "Unknown" ∧ seen = []) →
      clean_allergies_go seen l = l := by
  induction l with
  | nil => intro seen _ _ _; rfl
  | cons a as ih =>
    intro seen hnd hall hU
    obtain ⟨hstrip, hmem⟩ := hall a (List.mem_cons_self a as)
    simp only [clean_allergies_go]
    rw [if_pos ⟨hmem, hstrip⟩]
    rw [if_neg (fun hc => hc.2 (hU (by rw [hc.1]; exact List.mem_cons_self _ _)).2)]
    congr 1
    refine ih (a :: seen) (List.Nodup.of_cons hnd) ?_ ?_
    · intro x hx
      refine ⟨(hall x (List.mem_cons_of_mem a hx)).1, ?_⟩
      intro hc
      rcases List.mem_cons.mp hc with rfl | hc2
      · exact (List.nodup_cons.mp hnd).1 hx
      · exact (hall x (List.mem_cons_of_mem a hx)).2 hc2
    · intro hUas
      exfalso
      obtain ⟨hhead, -⟩ := hU (List.mem_cons_of_mem a hUas)
      have ha : a = "Unknown" := Option.some.inj hhead
      rw [ha] at hnd
      exact (List.nodup_cons.mp hnd).1 (ha ▸ hUas)

theorem clean_allergies_idem (l : List String) :
    clean_allergies (clean_allergies l) = clean_allergies l := by
  cases hall : l.all (fun a => a = "Unknown") with
  | true =>
    have hinner : clean_allergies l = if l.isEmpty then [] else ["Unknown"] := by
      unfold clean_allergies
      rw [if_pos hall]
    rw [hinner]
    cases l with
    | nil => rfl
    | cons a as => rfl
  | false =>
    have hinner : clean_allergies l = clean_allergies_go [] l := by
      unfold clean_allergies
      rw [if_neg (by simp [hall])]
    rw [hinner]
    cases h2 : (clean_allergies_go [] l).all (fun a => a = "Unknown") with
    | true =>
      cases hout : clean_allergies_go [] l with
      | nil => rfl
      | cons a rest =>
        have ha : a = "Unknown" := by
          have := h2
          rw [hout] at this
          simpa using (List.all_eq_true.mp this a (List.mem_cons_self a rest))
        have hrest : rest = [] := by
          cases hr : rest with
          | nil => rfl
          | cons b bs =>
            exfalso
            have hnd := clean_allergies_go_nodup l []
            rw [hout, hr] at hnd
            have hb : b = "Unknown" := by
              have := h2
              rw [hout, hr] at this
              simpa using (List.all_eq_true.mp this b
                (List.mem_cons_of_mem a (List.mem_cons_self b bs)))
            rw [ha, hb] at hnd
            exact (List.nodup_cons.mp hnd).1 (List.mem_cons_self _ bs)
        rw [ha, hrest]
        rfl
    | false =>
      have houter : clean_allergies (clean_allergies_go [] l)
          = clean_allergies_go [] (clean_allergies_go [] l) := by
        unfold clean_allergies
        rw [if_neg (by simp [h2])]
      rw [houter]
      refine clean_allergies_go_noop _ [] (clean_allergies_go_nodup l []) ?_ ?_
      · intro x hx
        exact ⟨(clean_allergies_go_mem l [] x hx).2, List.not_mem_nil x⟩
      · intro hU
        exact ⟨clean_allergies_go_unknown_head l hU, rfl⟩

/-- C9 (confirmed): the record cleaning operation is idempotent, including
under the allergy-sentinel collapsing rule. -/
theorem c9_clean_idempotent (h : PatientHistory) :
    clean_patient_history (clean_patient_history h) = clean_patient_history h := by
  simp only [clean_patient_history, clean_list_idem, clean_allergies_idem]

/-! ### Claim C10 -/

/-- C10, counterexample: an object item with all identifying sub-fields
present-but-falsy does NOT get the "Unknown ..." fallback in medications —
`med.get('name', 'Unknown medication')` falls back only when the key is
absent, so a present empty-string name yields an empty-string entry. -/
theorem c10_counterexample :
    update_history chatbot_sections 3
      { patient_id := "p", current_section := some "medications" }
      [("extracted", .obj [("items", .arr [.obj [("name", .str "")]])])]
    = some (true, { patient_id := "p", current_section := some "medications",
                    medications := [""], last_updated := 3 }) := rfl

/-- An item the shared loop drops silently: neither an object nor a
non-blank string. -/
def dropped_item : Json → Prop
  | .obj _ => False
  | .str s => pyStrip s = ""
  | _ => True

theorem foldl_mergeItem_dropped (entry : Obj → Except EntryFault String) (items : List Json) :
    ∀ cur : List String, (∀ i ∈ items, dropped_item i) →
      items.foldlM (mergeItem entry) cur = some cur := by
  induction items with
  | nil => intro cur _; rfl
  | cons i is ih =>
    intro cur hall
    have hd := hall i (List.mem_cons_self i is)
    have hstep : mergeItem entry cur i = some cur := by
      cases i with
      | obj f => exact absurd hd (by simp [dropped_item])
      | str s =>
        have hs : pyStrip s = "" := hd
        simp only [mergeItem]
        rw [if_neg (fun hc => hc.1 hs)]
      | null => rfl
      | bool b => rfl
      | num q => rfl
      | arr l => rfl
    rw [List.foldlM_cons, hstep]
    simpa using ih cur (fun j hj => hall j (List.mem_cons_of_mem i hj))

/-- Appending the empty string on the left is the identity. -/
theorem empty_append_str (s : String) : "" ++ s = s := by
  cases s with
  | mk l => rfl

/-- Joining a single string gives the string itself. -/
theorem string_join_single (s : String) : String.join [s] = s :=
  empty_append_str s

/-- C10 (amended): for every list-shaped section the merge silently ignores
items that are neither objects nor non-blank strings (null, booleans,
numbers, nested lists, and whitespace-only strings are dropped without
error and without appending).  An object item whose entry builder succeeds
yields exactly one canonical entry, appended unless already present
verbatim; truthy sub-fields of any type are f-string-rendered into the
entry by Python str() without error, so a numeric medication dosage yields
an entry such as name ++ " - " ++ str(dosage).  The "Unknown ..." fallback
label is used for allergies whenever the name is absent or falsy, but for
medications only when the name key is absent — a present-but-falsy name is
used as-is, so an empty-string name yields an empty-string entry, not the
fallback.  A present non-string name never yields a canonical string entry:
medications append the raw non-string value without raising when no truthy
component follows (leaving the string-typed record list), raise a TypeError
otherwise (unless the name is a list, which += extends), and the join-based
sections raise a TypeError on every truthy non-string name. -/
theorem c10_item_handling :
    (∀ (entry : Obj → Except EntryFault String) (cur : List String) (items : List Json),
      (∀ i ∈ items, dropped_item i) →
      update_list_section entry (.obj [("items", .arr items)]) cur = some cur) ∧
    (∀ (entry : Obj → Except EntryFault String) (cur : List String) (f : Obj) (s : String),
      entry f = .ok s → s ∉ cur →
      update_list_section entry (.obj [("items", .arr [.obj f])]) cur = some (cur ++ [s])) ∧
    (∀ (entry : Obj → Except EntryFault String) (cur : List String) (f : Obj) (s : String),
      entry f = .ok s → s ∈ cur →
      update_list_section entry (.obj [("items", .arr [.obj f])]) cur = some cur) ∧
    (∀ med : Obj, getVal med "name" = none → getTruthy med "dosage" = false →
      getTruthy med "frequency" = false → medEntry med = .ok "Unknown medication") ∧
    (∀ a : Obj, getTruthy a "name" = false → getTruthy a "severity" = false →
      getTruthy a "reaction" = false → allergyEntry a = .ok "Unknown allergy") ∧
    (∀ med : Obj, getVal med "name" = some (.str "") → getTruthy med "dosage" = false →
      getTruthy med "frequency" = false → medEntry med = .ok "") ∧
    (∀ (med : Obj) (s : String) (v : Json), getVal med "name" = some (.str s) →
      getVal med "dosage" = some v → truthy v = true → getTruthy med "frequency" = false →
      medEntry med = .ok (s ++ (" - " ++ pyStr v))) ∧
    (∀ (med : Obj) (v : Json), getVal med "name" = some v → (∀ t, v ≠ .str t) →
      getTruthy med "dosage" = false → getTruthy med "frequency" = false →
      medEntry med = .error .nonString) ∧
    (∀ (med : Obj) (v : Json), getVal med "name" = some v → (∀ t, v ≠ .str t) →
      (∀ l, v ≠ .arr l) → getTruthy med "dosage" = true →
      medEntry med = .error .typeError) ∧
    (∀ (a : Obj) (v : Json), getVal a "name" = some v → truthy v = true →
      (∀ t, v ≠ .str t) → allergyEntry a = .error .typeError) := by
  refine ⟨?_, ?_, ?_, ?_, ?_, ?_, ?_, ?_, ?_, ?_⟩
  · intro entry cur items hall
    show (itemsOf (.obj [("items", .arr items)])).bind
      (fun its => its.foldlM (mergeItem entry) cur) = _
    exact foldl_mergeItem_dropped entry items cur hall
  · intro entry cur f s hentry hnot
    show (itemsOf (.obj [("items", .arr [.obj f])])).bind
      (fun its => its.foldlM (mergeItem entry) cur) = _
    have hitems : itemsOf (.obj [("items", .arr [.obj f])]) = some [.obj f] := rfl
    rw [hitems]
    simp only [Option.some_bind, List.foldlM_cons, mergeItem, hentry, List.foldlM_nil]
    rw [if_neg hnot]
    rfl
  · intro entry cur f s hentry hmem
    show (itemsOf (.obj [("items", .arr [.obj f])])).bind
      (fun its => its.foldlM (mergeItem entry) cur) = _
    have hitems : itemsOf (.obj [("items", .arr [.obj f])]) = some [.obj f] := rfl
    rw [hitems]
    simp only [Option.some_bind, List.foldlM_cons, mergeItem, hentry, List.foldlM_nil]
    rw [if_pos hmem]
    rfl
  · intro med hname hdos hfreq
    simp only [medEntry, hname, entryComponent, hdos, hfreq, Bool.false_eq_true, if_false,
      List.nil_append]
    rfl
  · intro a hname hsev hreact
    simp only [allergyEntry, hname, entryComponent, hsev, hreact, Bool.false_eq_true, if_false,
      List.nil_append]
    rfl
  · intro med hname hdos hfreq
    simp only [medEntry, hname, entryComponent, hdos, hfreq, Bool.false_eq_true, if_false,
      List.nil_append]
    rfl
  · intro med s v hname hdos htr hfreq
    have hdt : getTruthy med "dosage" = true := by
      simp only [getTruthy, hdos, htr]
    simp only [medEntry, hname, entryComponent, hdos, hdt, hfreq, Option.getD_some,
      Bool.false_eq_true, if_false, if_true, List.append_nil]
    rw [string_join_single]
  · intro med v hname hv hdos hfreq
    cases v with
    | str t => exact absurd rfl (hv t)
    | null => simp [medEntry, hname, entryComponent, hdos, hfreq]
    | bool b => simp [medEntry, hname, entryComponent, hdos, hfreq]
    | num q => simp [medEntry, hname, entryComponent, hdos, hfreq]
    | arr l => simp [medEntry, hname, entryComponent, hdos, hfreq]
    | obj o => simp [medEntry, hname, entryComponent, hdos, hfreq]
  · intro med v hname hv hvarr hdos
    cases v with
    | str t => exact absurd rfl (hv t)
    | arr l => exact absurd rfl (hvarr l)
    | null => simp [medEntry, hname, entryComponent, hdos]
    | bool b => simp [medEntry, hname, entryComponent, hdos]
    | num q => simp [medEntry, hname, entryComponent, hdos]
    | obj o => simp [medEntry, hname, entryComponent, hdos]
  · intro a v hname htr hv
    have hnt : getTruthy a "name" = true := by
      simp only [getTruthy, hname, htr]
    cases v with
    | str t => exact absurd rfl (hv t)
    | null => simp [allergyEntry, hnt, hname]
    | bool b => simp [allergyEntry, hnt, hname]
    | num q => simp [allergyEntry, hnt, hname]
    | arr l => simp [allergyEntry, hnt, hname]
    | obj o => simp [allergyEntry, hnt, hname]

/-- C10 witness: the amended item-handling theorem applied to concrete
inputs — droppable items of every kind, a normal object item appending once
and deduplicating on re-merge, the absent-name medication fallback, the
falsy-name allergy fallback, the empty-string medication entry, a numeric
dosage rendered into the entry by str(), the raw append of a bare non-string
name, and the TypeErrors on a non-string name followed by a component and
on a truthy non-string allergy name. -/
theorem c10_item_handling_witness :
    update_list_section medEntry
      (.obj [("items", .arr [.null, .num 5, .str "   ", .bool true, .arr []])]) ["x"]
      = some ["x"] ∧
    update_list_section medEntry
      (.obj [("items", .arr [.obj [("name", .str "Aspirin"), ("dosage", .str "5mg")]])]) []
      = some ["Aspirin - 5mg"] ∧
    update_list_section medEntry
      (.obj [("items", .arr [.obj [("name", .str "Aspirin"), ("dosage", .str "5mg")]])])
      ["Aspirin - 5mg"] = some ["Aspirin - 5mg"] ∧
    medEntry [("dosage", .null)] = .ok "Unknown medication" ∧
    allergyEntry [("name", .str "")] = .ok "Unknown allergy" ∧
    medEntry [("name", .str "")] = .ok "" ∧
    medEntry [("name", .str "Aspirin"), ("dosage", .num 5)] = .ok "Aspirin - 5" ∧
    medEntry [("name", .null)] = .error .nonString ∧
    medEntry [("name", .null), ("dosage", .str "5mg")] = .error .typeError ∧
    allergyEntry [("name", .num 2)] = .error .typeError :=
  ⟨c10_item_handling.1 medEntry ["x"] [.null, .num 5, .str "   ", .bool true, .arr []]
      (by intro i hi; fin_cases hi <;> simp [dropped_item, pyStrip]),
   c10_item_handling.2.1 medEntry [] [("name", .str "Aspirin"), ("dosage", .str "5mg")]
     "Aspirin - 5mg" rfl (List.not_mem_nil _),
   c10_item_handling.2.2.1 medEntry ["Aspirin - 5mg"]
     [("name", .str "Aspirin"), ("dosage", .str "5mg")] "Aspirin - 5mg" rfl (by simp),
   c10_item_handling.2.2.2.1 [("dosage", .null)] rfl rfl rfl,
   c10_item_handling.2.2.2.2.1 [("name", .str "")] rfl rfl rfl,
   c10_item_handling.2.2.2.2.2.1 [("name", .str "")] rfl rfl rfl,
   by
     have h := c10_item_handling.2.2.2.2.2.2.1 [("name", .str "Aspirin"), ("dosage", .num 5)]
       "Aspirin" (.num 5) rfl rfl (by norm_num [truthy]) rfl
     rw [h]
     norm_num [pyStr, pyNumStr, intStr, natStr, natDigitsAux]
     decide,
   c10_item_handling.2.2.2.2.2.2.2.1 [("name", .null)] Json.null rfl
     (fun t h => Json.noConfusion h) rfl rfl,
   c10_item_handling.2.2.2.2.2.2.2.2.1 [("name", .null), ("dosage", .str "5mg")] Json.null rfl
     (fun t h => Json.noConfusion h) (fun l h => Json.noConfusion h) rfl,
   c10_item_handling.2.2.2.2.2.2.2.2.2 [("name", .num 2)] (Json.num 2) rfl
     (by norm_num [truthy]) (fun t h => Json.noConfusion h)⟩

/-! ### Claim C8 -/

/-- C8 (code bug): on an unparsable generator reply the Coordinator never
raises and returns is_complete=false with needs_clarification=true — but for
basic_info the placeholder payload is malformed.  In _create_error_response
the conditional expression is the value of the "items" key, so the
basic_info placeholder is `extracted.items = (five-null bag)` instead of the
five-scalar null bag that the same module's extraction contract and
_update_basic_info expect at the top of `extracted`. -/
theorem c8_parse_failure_shape :
    extract_information (fun _ => none) (some "not json") "hello" (some "basic_info") []
      = create_error_response (some "basic_info")
          (some "Invalid JSON response: Invalid JSON response") ∧
    getVal (extract_information (fun _ => none) (some "not json") "hello"
        (some "basic_info") []) "extracted"
      = some (.obj [("items", .obj [("name", .null), ("age", .null), ("gender", .null),
          ("height", .null), ("weight", .null)])]) ∧
    getVal (extract_information (fun _ => none) (some "not json") "hello"
        (some "basic_info") []) "is_complete" = some (.bool false) ∧
    getVal (extract_information (fun _ => none) (some "not json") "hello"
        (some "basic_info") []) "needs_clarification" = some (.bool true) ∧
    getVal (extract_information (fun _ => none) (some "not json") "hello"
        (some "medications") []) "extracted" = some (.obj [("items", .arr [])]) :=
  ⟨rfl, rfl, rfl, rfl, rfl⟩

/-! ### Claim C1 -/

/-- C1, counterexample: a generator-collaborator failure after retry
exhaustion does NOT propagate to the caller.  Inside the try block it
surfaces as the DataExtractionError wrapped by _get_chatbot_response, and
extract_information's own except clauses (which catch every Exception)
convert it to a structured error response instead of letting it escape. -/
theorem c1_counterexample :
    extract_information_body (fun _ => none) none "hello" (some "basic_info") []
      = .error (.dataExtractionError "Chatbot communication failed") ∧
    extract_information (fun _ => none) none "hello" (some "basic_info") []
      = create_error_response (some "basic_info")
          (some "Data extraction failed: Chatbot communication failed") :=
  ⟨rfl, rfl⟩

theorem get_extraction_prompt_ne_empty (sec : Option String) (message context_str : String) :
    get_extraction_prompt sec message context_str ≠ "" := by
  unfold get_extraction_prompt
  split <;>
    · intro h
      have h2 := congrArg String.data h
      rw [String.data_append] at h2
      cases h2

theorem extract_information_body_gen_none (parse : String → Option Json)
    (message : String) (sec : Option String) (context : List String) :
    extract_information_body parse none message sec context
      = .error (.dataExtractionError "Chatbot communication failed") := by
  unfold extract_information_body
  rw [if_neg (get_extraction_prompt_ne_empty sec message _)]
  rfl

theorem update_history_of_noop (sections : List String) (now : ℕ) (h : PatientHistory)
    (info : Obj) (hext : getTruthy info "extracted" = true)
    (hic : getTruthy info "is_complete" = false)
    (happ : apply_section_update h ((getVal info "extracted").getD .null) = some h) :
    update_history sections now h info = some (true, { h with last_updated := now }) := by
  unfold update_history
  rw [hext]
  simp only [Bool.not_true, Bool.false_eq_true, if_false, Option.bind_eq_bind]
  rw [happ]
  simp only [Option.some_bind]
  rw [hic]
  simp only [Bool.false_eq_true, if_false]

/-- C1 (amended): no fault propagates past extract_information — its except
clauses catch every exception of the try block, so every failing run,
including a generator-collaborator failure after retry exhaustion, returns a
structured error response instead of raising; and merging such an error
response into any record changes nothing but the timestamp (scalars, list
fields, completion flags and the active section all stay as they were). -/
theorem c1_no_propagation :
    (∀ (parse : String → Option Json) (gen : Option String) (message : String)
        (sec : Option String) (context : List String) (e : PyErr),
      message ≠ "" →
      extract_information_body parse gen message sec context = .error e →
      extract_information parse gen message sec context = handle_extract_error sec e) ∧
    (∀ (parse : String → Option Json) (message : String) (sec : Option String)
        (context : List String), message ≠ "" →
      extract_information parse none message sec context
        = create_error_response sec
            (some "Data extraction failed: Chatbot communication failed")) ∧
    (∀ (h : PatientHistory) (now : ℕ) (m : String),
      update_history chatbot_sections now h (create_error_response h.current_section (some m))
        = some (true, { h with last_updated := now })) := by
  have hbody : ∀ (parse : String → Option Json) (gen : Option String) (message : String)
      (sec : Option String) (context : List String) (e : PyErr),
      message ≠ "" →
      extract_information_body parse gen message sec context = .error e →
      extract_information parse gen message sec context = handle_extract_error sec e := by
    intro parse gen message sec context e hmsg hb
    unfold extract_information
    rw [if_neg hmsg, hb]
  refine ⟨hbody, ?_, ?_⟩
  · intro parse message sec context hmsg
    exact hbody parse none message sec context _ hmsg
      (extract_information_body_gen_none parse message sec context)
  · intro h now m
    have hext : getTruthy (create_error_response h.current_section (some m)) "extracted"
        = true := by
      by_cases hb : h.current_section = some "basic_info"
      · rw [hb]; rfl
      · unfold create_error_response
        rw [if_pos hb, if_neg hb]
        rfl
    have hic : getTruthy (create_error_response h.current_section (some m)) "is_complete"
        = false := by
      by_cases hb : h.current_section = some "basic_info"
      · rw [hb]; rfl
      · unfold create_error_response
        rw [if_pos hb, if_neg hb]
        rfl
    have hpay : ∀ (sec' : Option String) (m' : String), sec' ≠ some "basic_info" →
        (getVal (create_error_response sec' (some m')) "extracted").getD .null
          = .obj [("items", .arr [])] := by
      intro sec' m' hsec
      unfold create_error_response
      rw [if_neg hsec, if_pos hsec]
      rfl
    have happ : apply_section_update h
        ((getVal (create_error_response h.current_section (some m)) "extracted").getD .null)
        = some h := by
      unfold apply_section_update
      split
      · rename_i heq; rw [heq]; rfl
      · rename_i heq
        rw [hpay h.current_section m (by rw [heq]; decide)]
        rfl
      · rename_i heq
        rw [hpay h.current_section m (by rw [heq]; decide)]
        rfl
      · rename_i heq
        rw [hpay h.current_section m (by rw [heq]; decide)]
        rfl
      · rename_i heq
        rw [hpay h.current_section m (by rw [heq]; decide)]
        rfl
      · rename_i heq
        rw [hpay h.current_section m (by rw [heq]; decide)]
        rfl
      · rfl
    exact update_history_of_noop chatbot_sections now h _ hext hic happ

/-- C1 witness: the amended theorem applied at a concrete collaborator
failure for the medications section, and a concrete merge of the resulting
error response that moves only the timestamp. -/
theorem c1_no_propagation_witness :
    extract_information (fun _ => none) none "hello" (some "medications") []
      = create_error_response (some "medications")
          (some "Data extraction failed: Chatbot communication failed") ∧
    update_history chatbot_sections 9
      { patient_id := "p", current_section := some "medications" }
      (create_error_response (some "medications") (some "oops"))
      = some (true, { patient_id := "p", current_section := some "medications",
                      last_updated := 9 }) :=
  ⟨c1_no_propagation.2.1 (fun _ => none) "hello" (some "medications") [] (by decide),
   c1_no_propagation.2.2 { patient_id := "p", current_section := some "medications" } 9 "oops"⟩

end Homeogenie
